import Mathlib

/-!
Verification of the data-quality and anomaly-detection core of the
urban-intelligence-lab repository, as a shallow embedding in Lean.

The embedding covers:
* `src/utils/data_quality.py`: `standardize_column_names`, `basic_cleaning`,
  `validate_schema`, `detect_numeric_anomalies`, `load_csv`, `save_dataset`,
  `run_data_quality_pipeline`;
* `src/ml/anomaly_detector.py`: `prepare_daily_series`, `detect_anomalies`.

Tables are lists of rows over a `Cell` type (missing / text / numeric).
Rational numbers stand in for Python floats; `NaN` is modelled by
`Option.none` at the places the source produces and consumes it.
-/

/-! ## Characters and strings

Python / pandas string helpers used by the source: `str.strip` (which
removes ASCII whitespace from both ends), `str.lower` and
single-character `str.replace`.
-/

/-- ASCII whitespace as stripped by Python's `str.strip()`. -/
def isPyWs (c : Char) : Bool :=
  c = ' ' || c = '\t' || c = '\n' || c = '\r' || c = '\x0b' || c = '\x0c'

/-- `str.strip()` on the character list: drop whitespace from both ends. -/
def trimChars (l : List Char) : List Char :=
  ((l.dropWhile isPyWs).reverse.dropWhile isPyWs).reverse

/-- `str.strip()` on strings. -/
def pyStrip (s : String) : String :=
  ⟨trimChars s.data⟩

/-- `str.lower()` on a single character (ASCII range, which is the range
column names in this repository use; written as an explicit table so that
its behaviour is transparent). -/
def pyToLower (c : Char) : Char :=
  if c = 'A' then 'a' else if c = 'B' then 'b' else if c = 'C' then 'c'
  else if c = 'D' then 'd' else if c = 'E' then 'e' else if c = 'F' then 'f'
  else if c = 'G' then 'g' else if c = 'H' then 'h' else if c = 'I' then 'i'
  else if c = 'J' then 'j' else if c = 'K' then 'k' else if c = 'L' then 'l'
  else if c = 'M' then 'm' else if c = 'N' then 'n' else if c = 'O' then 'o'
  else if c = 'P' then 'p' else if c = 'Q' then 'q' else if c = 'R' then 'r'
  else if c = 'S' then 's' else if c = 'T' then 't' else if c = 'U' then 'u'
  else if c = 'V' then 'v' else if c = 'W' then 'w' else if c = 'X' then 'x'
  else if c = 'Y' then 'y' else if c = 'Z' then 'z' else c

/-- `str.lower()` on strings. -/
def pyLower (s : String) : String :=
  ⟨s.data.map pyToLower⟩

/-- The basic latin capitals (the characters `pyToLower` lowers). -/
def upperChars : List Char :=
  ['A', 'B', 'C', 'D', 'E', 'F', 'G', 'H', 'I', 'J', 'K', 'L', 'M',
   'N', 'O', 'P', 'Q', 'R', 'S', 'T', 'U', 'V', 'W', 'X', 'Y', 'Z']

/-- The basic latin small letters. -/
def lowerChars : List Char :=
  ['a', 'b', 'c', 'd', 'e', 'f', 'g', 'h', 'i', 'j', 'k', 'l', 'm',
   'n', 'o', 'p', 'q', 'r', 's', 't', 'u', 'v', 'w', 'x', 'y', 'z']

/-- Replace one character by another (the `str.replace` calls in the source
replace the single characters `' '` and `'-'`). -/
def replCh (old new : Char) (c : Char) : Char :=
  if c = old then new else c

/-- Single-character `str.replace` on strings. -/
def pyReplaceChar (old new : Char) (s : String) : String :=
  ⟨s.data.map (replCh old new)⟩

/-! ## Cells and tables -/

/-- One cell of a table: missing (`NaN`/`None`), text, or numeric.
Python floats are modelled by rationals. -/
inductive Cell where
  | null
  | str (s : String)
  | num (q : ℚ)
deriving DecidableEq

instance : Inhabited Cell := ⟨Cell.null⟩

/-- A dataframe: a list of column names and a list of rows, each row a list
of cells aligned with the column list. -/
structure Table where
  cols : List String
  rows : List (List Cell)
deriving DecidableEq

/-- Cell of a row at a column position (missing positions read as null). -/
def getCell (r : List Cell) (j : ℕ) : Cell :=
  r.getD j Cell.null

/-- Position of a column name in a header (first match, as pandas column
lookup on a unique header). -/
def colPos (cols : List String) (c : String) : ℕ :=
  cols.findIdx (fun x => x = c)

/-- The cells of column `c` of `df`, in row order (`df[c]`). -/
def column (df : Table) (c : String) : List Cell :=
  df.rows.map (fun r => getCell r (colPos df.cols c))

/-! ## `standardize_column_names` (src/utils/data_quality.py:93) -/

/-- The per-character composite the header transform applies after
stripping: lower-case, then replace spaces and hyphens by underscores. -/
def normChar (c : Char) : Char :=
  replCh '-' '_' (replCh ' ' '_' (pyToLower c))

/-- The transform applied to one column name:
`.str.strip().str.lower().str.replace(" ", "_").str.replace("-", "_")`. -/
def normalizeName (s : String) : String :=
  pyReplaceChar '-' '_' (pyReplaceChar ' ' '_' (pyLower (pyStrip s)))

/-- `standardize_column_names`: snake-case and strip the header; rows are
untouched. -/
def standardize_column_names (df : Table) : Table :=
  ⟨df.cols.map normalizeName, df.rows⟩

/-! ## Duplicate removal (`DataFrame.drop_duplicates`, keep="first") -/

/-- Keep each element's first occurrence, dropping anything already seen. -/
def dedupFirstAux [DecidableEq α] (seen : List α) : List α → List α
  | [] => []
  | a :: l => if a ∈ seen then dedupFirstAux seen l else a :: dedupFirstAux (a :: seen) l

/-- `drop_duplicates()` of pandas: the distinct elements in first-seen
order. -/
def dedupFirst [DecidableEq α] (l : List α) : List α :=
  dedupFirstAux [] l

/-! ## `basic_cleaning` (src/utils/data_quality.py:109) -/

/-- Whether the cell is compatible with a text-typed (`object`/`string`)
column. -/
def isTextCell : Cell → Bool
  | .num _ => false
  | _ => true

/-- Whether column `j` is text-typed: it holds at least one string and no
numbers (this is the dtype `select_dtypes(include=["object", "string"])`
selects for CSV-loaded data). -/
def isTextColumn (rows : List (List Cell)) (j : ℕ) : Bool :=
  rows.all (fun r => isTextCell (getCell r j)) &&
    rows.any (fun r => match getCell r j with | .str _ => true | _ => false)

/-- `.str.strip()` applied to one cell: text is trimmed, missing values and
numbers pass through unchanged. -/
def trimCell : Cell → Cell
  | .str s => .str (pyStrip s)
  | c => c

/-- Map a function of the position over a list. -/
def mapWithIdx (f : ℕ → α → β) : ℕ → List α → List β
  | _, [] => []
  | i, a :: l => f i a :: mapWithIdx f (i + 1) l

/-- Trim the text-typed columns of a block of rows (the `for col in
select_dtypes(...)` loop). -/
def trimTextColumns (rows : List (List Cell)) : List (List Cell) :=
  rows.map (fun r => mapWithIdx (fun j c => if isTextColumn rows j then trimCell c else c) 0 r)

/-- `basic_cleaning`: standardize the header, drop fully duplicated rows
(keeping first occurrences), then trim string columns.  The `config`
argument is only used for logging in the source. -/
def basic_cleaning (df : Table) : Table :=
  let df1 := standardize_column_names df
  let rows2 := dedupFirst df1.rows
  ⟨df1.cols, trimTextColumns rows2⟩

/-- Spec-side description of "the distinct rows, preserving first-seen
order": walk the list once, appending each value the first time it is
seen. -/
def specDistinct [DecidableEq α] (l : List α) : List α :=
  l.foldl (fun acc r => if r ∈ acc then acc else acc ++ [r]) []

/-! ## Orderings

Python's `sorted` and pandas sort keys compare strings lexicographically by
code point; the embedding uses an executable lexicographic comparison.
-/

/-- Lexicographic comparison of character lists by code point, the order
`sorted` uses on strings. -/
def charListLe : List Char → List Char → Bool
  | [], _ => true
  | _ :: _, [] => false
  | a :: as, b :: bs => if a < b then true else if b < a then false else charListLe as bs

/-- Lexicographic string comparison. -/
def strLe (a b : String) : Bool :=
  charListLe a.data b.data

/-- `sorted(...)` on a list of strings. -/
def sortStrings (l : List String) : List String :=
  List.insertionSort (fun a b => strLe a b = true) l

/-! ## Dataset expectations and issues (src/utils/data_quality.py:23) -/

/-- `DataQualityConfig`: the declarative expectation for one dataset.
Python dicts keep insertion order, so `allowed_values` and `value_ranges`
are association lists. -/
structure DataQualityConfig where
  name : String
  expected_columns : List String
  non_null_columns : List String := []
  date_columns : List String := []
  numeric_columns : List String := []
  allowed_values : List (String × List Cell) := []
  value_ranges : List (String × (Option ℚ × Option ℚ)) := []
  unique_keys : List (List String) := []
  min_rows : ℕ := 1

/-- One issue reported by `validate_schema`.  The source formats each as a
human-readable f-string; the embedding keeps the data each message
carries. -/
inductive Issue where
  | missingColumns (cols : List String)
  | unexpectedColumns (cols : List String)
  | nullColumn (col : String) (nullCount : ℕ)
  | nonNullColumnMissing (col : String)
  | rowCount (actual required : ℕ)
  | invalidValues (col : String) (vals : List Cell)
  | belowMin (col : String) (m : ℚ)
  | aboveMax (col : String) (m : ℚ)
  | duplicateKey (key : List String) (dupCount : ℕ)
deriving DecidableEq

/-! ## Python-level errors

The data-quality functions are not total: `astype(float)` raises
`ValueError` on non-numeric text, `df[col] < m` raises `TypeError` when
the column holds strings, and `load_csv` raises `FileNotFoundError` on an
absent path.  These abort paths are modelled explicitly.
-/

/-- The exceptions the data-quality module can raise. -/
inductive PyError where
  | fileNotFound (path : String)
  | valueError (col : String)
  | typeError (col : String)
deriving DecidableEq

/-- Whether a column holds any text cell.  A pandas column holding a
string is `object`-typed, and comparing it to a number (`df[col] < m`)
raises `TypeError`; a column of numbers and missing values compares
element-wise, `NaN` comparing false. -/
def columnHasText (df : Table) (col : String) : Bool :=
  (column df col).any (fun c => match c with | .str _ => true | _ => false)

/-! ## `validate_schema` (src/utils/data_quality.py:133) -/

/-- `df[col] < m` on one numeric-or-missing cell; missing values compare
false, as `NaN < m` does.  Text cells never reach this comparison: the
range check raises `TypeError` first on a column holding text (see
`rangeCheck`). -/
def cellLtNum (c : Cell) (m : ℚ) : Bool :=
  match c with
  | .num q => decide (q < m)
  | .null => false
  | .str _ => false

/-- `df[col] > m` on one numeric-or-missing cell (text never reaches the
comparison, as for `cellLtNum`). -/
def cellGtNum (c : Cell) (m : ℚ) : Bool :=
  match c with
  | .num q => decide (q > m)
  | .null => false
  | .str _ => false

/-- The projection of a row onto a composite key. -/
def keyOf (cols : List String) (key : List String) (r : List Cell) : List Cell :=
  key.map (fun k => getCell r (colPos cols k))

/-- Count rows whose key duplicates an earlier row's key
(`df.duplicated(subset=key).sum()`, keep="first"). -/
def dupKeyCountAux (cols : List String) (key : List String)
    (seen : List (List Cell)) : List (List Cell) → ℕ
  | [] => 0
  | r :: rest =>
    let k := keyOf cols key r
    (if k ∈ seen then 1 else 0) + dupKeyCountAux cols key (k :: seen) rest

/-- Number of duplicated rows with respect to a composite key. -/
def dupKeyCount (cols : List String) (key : List String) (rows : List (List Cell)) : ℕ :=
  dupKeyCountAux cols key [] rows

/-- One step of the value-range loop: `df[col] < min_val` then
`df[col] > max_val`, each bound checked independently.  Either comparison
raises `TypeError` when the column holds a text cell; a comparison is
only attempted for a bound that is set. -/
def rangeCheck (df : Table) (acc : List Issue)
    (p : String × (Option ℚ × Option ℚ)) : Except PyError (List Issue) :=
  if p.1 ∈ df.cols then
    match (match p.2.1 with
      | some m =>
        if columnHasText df p.1 then Except.error (PyError.typeError p.1)
        else if (column df p.1).any (fun c => cellLtNum c m) then
          Except.ok (acc ++ [Issue.belowMin p.1 m])
        else Except.ok acc
      | none => Except.ok acc) with
    | .error e => .error e
    | .ok acc2 =>
      match p.2.2 with
      | some m =>
        if columnHasText df p.1 then .error (.typeError p.1)
        else if (column df p.1).any (fun c => cellGtNum c m) then
          .ok (acc2 ++ [.aboveMax p.1 m])
        else .ok acc2
      | none => .ok acc2
  else .ok acc

/-- `validate_schema`, mirroring the source's sequential accumulation of
issues into one list.  The range checks can raise `TypeError` (see
`rangeCheck`); every other check only accumulates issues. -/
def validate_schema (df : Table) (config : DataQualityConfig) :
    Except PyError (List Issue) :=
  let issues : List Issue := []
  let missing := sortStrings ((config.expected_columns.filter (fun c => c ∉ df.cols)).dedup)
  let extra := sortStrings ((df.cols.filter (fun c => c ∉ config.expected_columns)).dedup)
  let issues := if missing ≠ [] then issues ++ [.missingColumns missing] else issues
  let issues := if extra ≠ [] then issues ++ [.unexpectedColumns extra] else issues
  let issues := config.non_null_columns.foldl (fun acc col =>
      if col ∈ df.cols then
        let nullCount := (column df col).countP (fun c => c = Cell.null)
        if nullCount > 0 then acc ++ [.nullColumn col nullCount] else acc
      else acc ++ [.nonNullColumnMissing col]) issues
  let issues := if df.rows.length < config.min_rows then
      issues ++ [.rowCount df.rows.length config.min_rows] else issues
  let issues := config.allowed_values.foldl (fun acc p =>
      if p.1 ∈ df.cols then
        let invalid := dedupFirst ((column df p.1).filter (fun c => c ∉ p.2))
        if invalid ≠ [] then acc ++ [.invalidValues p.1 invalid] else acc
      else acc) issues
  match config.value_ranges.foldlM (rangeCheck df) issues with
  | .error e => .error e
  | .ok issues =>
    .ok (config.unique_keys.foldl (fun acc key =>
      if key.all (fun k => k ∈ df.cols) then
        let d := dupKeyCount df.cols key df.rows
        if d > 0 then acc ++ [.duplicateKey key d] else acc
      else acc) issues)

/-! Spec-side rendering of `validate`: seven independent blocks of issues,
concatenated in the documented order. -/

/-- Block 1: one issue listing all missing required columns, sorted. -/
def missingColumnIssues (df : Table) (config : DataQualityConfig) : List Issue :=
  let missing := sortStrings ((config.expected_columns.filter (fun c => c ∉ df.cols)).dedup)
  if missing ≠ [] then [.missingColumns missing] else []

/-- Block 2: one issue listing all unexpected columns, sorted. -/
def unexpectedColumnIssues (df : Table) (config : DataQualityConfig) : List Issue :=
  let extra := sortStrings ((df.cols.filter (fun c => c ∉ config.expected_columns)).dedup)
  if extra ≠ [] then [.unexpectedColumns extra] else []

/-- Block 3: one issue per violating non-null column (with its null
count); an absent non-null column gets its own distinct issue. -/
def nonNullIssues (df : Table) (config : DataQualityConfig) : List Issue :=
  config.non_null_columns.flatMap (fun col =>
    if col ∈ df.cols then
      let nullCount := (column df col).countP (fun c => c = Cell.null)
      if nullCount > 0 then [.nullColumn col nullCount] else []
    else [.nonNullColumnMissing col])

/-- Block 4: the row-count issue (actual vs. required). -/
def rowCountIssues (df : Table) (config : DataQualityConfig) : List Issue :=
  if df.rows.length < config.min_rows then [.rowCount df.rows.length config.min_rows] else []

/-- Block 5: one issue per allowed-value violation, listing the distinct
invalid values in first-seen order. -/
def allowedValueIssues (df : Table) (config : DataQualityConfig) : List Issue :=
  config.allowed_values.flatMap (fun p =>
    if p.1 ∈ df.cols then
      let invalid := dedupFirst ((column df p.1).filter (fun c => c ∉ p.2))
      if invalid ≠ [] then [.invalidValues p.1 invalid] else []
    else [])

/-- The range issues one (column, bounds) pair contributes: the
below-minimum issue then the above-maximum issue, each checked
independently. -/
def rangeIssuesFor (df : Table) (p : String × (Option ℚ × Option ℚ)) : List Issue :=
  if p.1 ∈ df.cols then
    (match p.2.1 with
      | some m => if (column df p.1).any (fun c => cellLtNum c m) then
          [Issue.belowMin p.1 m] else []
      | none => []) ++
    (match p.2.2 with
      | some m => if (column df p.1).any (fun c => cellGtNum c m) then
          [Issue.aboveMax p.1 m] else []
      | none => [])
  else []

/-- Block 6: below-minimum and above-maximum issues, checked independently
per column. -/
def valueRangeIssues (df : Table) (config : DataQualityConfig) : List Issue :=
  config.value_ranges.flatMap (rangeIssuesFor df)

/-- Block 7: one issue per violated unique key. -/
def uniqueKeyIssues (df : Table) (config : DataQualityConfig) : List Issue :=
  config.unique_keys.flatMap (fun key =>
    if key.all (fun k => k ∈ df.cols) then
      let d := dupKeyCount df.cols key df.rows
      if d > 0 then [.duplicateKey key d] else []
    else [])

/-- The spec's description of `validate`: the seven blocks in order. -/
def validate_schema_spec (df : Table) (config : DataQualityConfig) : List Issue :=
  missingColumnIssues df config ++ unexpectedColumnIssues df config ++
    nonNullIssues df config ++ rowCountIssues df config ++
    allowedValueIssues df config ++ valueRangeIssues df config ++
    uniqueKeyIssues df config

/-! ## `detect_numeric_anomalies` (src/utils/data_quality.py:196)

`series = df[col].astype(float)` turns numeric cells into floats and
missing cells into `NaN` (modelled by `none`); a text cell is parsed with
Python's `float(...)`, which raises `ValueError` on non-numeric text, so
the conversion of a column holding such text aborts the call.  `mean` and
`std` skip `NaN` per pandas semantics, and pandas `Series.std()` defaults
to `ddof=1` (sample standard deviation).

The source computes `z = (x - mean)/std` with `std = sqrt(var)` and flags
`|z| >= t`.  Since `sqrt` leaves the rationals, the embedding flags by the
equivalent comparison `(x - mean)^2 >= t^2 * var`; the lemma
`sq_flag_iff_z_flag` below proves this equivalence against the real-valued
definition for `t ≥ 0` (the threshold defaults to `4.0`).
-/

/-- `float(s)` on a Python string, abstracted (its grammar — signs,
exponents, "nan"/"inf", surrounding whitespace — is library behaviour):
`none` means `float(s)` raises `ValueError`, `some none` means it parses
to `NaN`, `some (some q)` a finite value.  All claims are proved for
every choice of this function. -/
def FloatOfString : Type := String → Option (Option ℚ)

/-- `astype(float)` on one cell: numbers pass through, missing values
become `NaN`, text is parsed (`none` = `ValueError`). -/
def cellFloat (pf : FloatOfString) : Cell → Option (Option ℚ)
  | .num q => some (some q)
  | .null => some none
  | .str s => pf s

/-- `astype(float)` on a list of cells: the converted series, or `none`
when some cell is unconvertible (the source raises `ValueError`). -/
def astypeList (pf : FloatOfString) : List Cell → Option (List (Option ℚ))
  | [] => some []
  | c :: l =>
    match cellFloat pf c, astypeList pf l with
    | some v, some vs => some (v :: vs)
    | _, _ => none

/-- `df[col].astype(float)`. -/
def astypeFloat (pf : FloatOfString) (df : Table) (col : String) :
    Option (List (Option ℚ)) :=
  astypeList pf (column df col)

/-- The non-missing values of a float series. -/
def presentVals (s : List (Option ℚ)) : List ℚ :=
  s.filterMap id

/-- `Series.mean()`: `NaN`-skipping mean, `NaN` on an empty series. -/
def seriesMean (s : List (Option ℚ)) : Option ℚ :=
  let v := presentVals s
  if v.length = 0 then none else some (v.sum / v.length)

/-- `Series.std()` with the pandas default `ddof=1`, represented by the
sample variance (its square): divide by `N - 1`, `NaN` when fewer than two
values are present. -/
def seriesSampleVar (s : List (Option ℚ)) : Option ℚ :=
  let v := presentVals s
  if v.length ≤ 1 then none
  else some ((v.map (fun x => (x - v.sum / v.length) ^ 2)).sum / ((v.length : ℚ) - 1))

/-- Population variance (divide by `N`), the square of the standard
deviation the spec describes; `NaN` on an empty series. -/
def seriesPopVar (s : List (Option ℚ)) : Option ℚ :=
  let v := presentVals s
  if v.length = 0 then none
  else some ((v.map (fun x => (x - v.sum / v.length) ^ 2)).sum / (v.length : ℚ))

/-- Indices of the rows flagged by the z-score mask: value present and
`(x - mean)^2 ≥ t^2 * var` (that is `|z| ≥ t`); `NaN` rows are never
flagged. -/
def zFlagged (s : List (Option ℚ)) (m v t : ℚ) : List ℕ :=
  (List.range s.length).filter (fun i =>
    match s.getD i none with
    | some x => decide ((x - m) ^ 2 ≥ t ^ 2 * v)
    | none => false)

/-- One iteration of the column loop of `detect_numeric_anomalies`:
convert the column with `astype(float)` (raising `ValueError` on a
non-numeric text cell), compute mean and (sample) standard deviation,
skip the column when the standard deviation is zero or undefined, and
append the flagged rows (by position) when any row is flagged. -/
def detectStep (pf : FloatOfString) (df : Table) (z_threshold : ℚ)
    (acc : List (String × List ℕ)) (col : String) :
    Except PyError (List (String × List ℕ)) :=
  if col ∈ df.cols then
    match astypeFloat pf df col with
    | none => .error (.valueError col)
    | some s =>
      match seriesMean s, seriesSampleVar s with
      | some m, some v =>
        if v = 0 then .ok acc
        else
          let mask := zFlagged s m v z_threshold
          if mask ≠ [] then .ok (acc ++ [(col, mask)]) else .ok acc
      | _, _ => .ok acc
  else .ok acc

/-- `detect_numeric_anomalies`: run the column loop over the listed
numeric columns, sequencing the possible `ValueError`. -/
def detect_numeric_anomalies (pf : FloatOfString) (df : Table)
    (numeric_columns : List String) (z_threshold : ℚ) :
    Except PyError (List (String × List ℕ)) :=
  numeric_columns.foldlM (detectStep pf df z_threshold) []

/-- One iteration of the column loop as the spec describes it: the same
computation but with the population standard deviation (divide by `N`). -/
def detectStepPop (pf : FloatOfString) (df : Table) (z_threshold : ℚ)
    (acc : List (String × List ℕ)) (col : String) :
    Except PyError (List (String × List ℕ)) :=
  if col ∈ df.cols then
    match astypeFloat pf df col with
    | none => .error (.valueError col)
    | some s =>
      match seriesMean s, seriesPopVar s with
      | some m, some v =>
        if v = 0 then .ok acc
        else
          let mask := zFlagged s m v z_threshold
          if mask ≠ [] then .ok (acc ++ [(col, mask)]) else .ok acc
      | _, _ => .ok acc
  else .ok acc

/-- The behaviour the spec claims for `detect_numeric_anomalies`: the same
loop but with the population standard deviation. -/
def detect_numeric_anomalies_population (pf : FloatOfString) (df : Table)
    (numeric_columns : List String) (z_threshold : ℚ) :
    Except PyError (List (String × List ℕ)) :=
  numeric_columns.foldlM (detectStepPop pf df z_threshold) []

/-- The entry one column contributes in the declarative rendering of the
(amended) claim: `some` when the column is present, converts, has a
defined non-zero sample standard deviation and at least one flagged row;
the entry lists exactly the rows with `|z| ≥ t`. -/
def detectEntry (pf : FloatOfString) (df : Table) (z_threshold : ℚ)
    (col : String) : Option (String × List ℕ) :=
  if col ∈ df.cols then
    match astypeFloat pf df col with
    | none => none
    | some s =>
      match seriesMean s, seriesSampleVar s with
      | some m, some v =>
        if v = 0 then none
        else
          let mask := zFlagged s m v z_threshold
          if mask ≠ [] then some (col, mask) else none
      | _, _ => none
  else none

/-- Declarative rendering of the (amended) claim, for tables whose listed
numeric columns convert: the per-column entries collected in order. -/
def detect_numeric_anomalies_spec (pf : FloatOfString) (df : Table)
    (numeric_columns : List String) (z_threshold : ℚ) :
    List (String × List ℕ) :=
  numeric_columns.filterMap (detectEntry pf df z_threshold)

/-! ## `load_csv`, `save_dataset`, `run_data_quality_pipeline`
(src/utils/data_quality.py:71, 227, 245)

The filesystem is a map from paths to raw files.  A raw file records the
table obtained by each decoding: `utf8` is `none` when UTF-8 decoding
fails, in which case `load_csv` falls back to the Latin-1 decoding (which
cannot fail).  `save_dataset` writes the CSV unconditionally; the Parquet
write is attempted and, when the optional dependency fails, the exception
is caught and logged (`parquetOk` says whether that write succeeds).
-/

/-- A raw file on disk, as seen through the two decodings. -/
structure RawFile where
  utf8 : Option Table
  latin1 : Table

/-- A filesystem: paths to raw files. -/
def FileSystem : Type := String → Option RawFile

/-- `load_csv`: raise file-not-found when the path is absent, otherwise
read with UTF-8 and fall back to Latin-1 on a decode failure. -/
def load_csv (fs : FileSystem) (path : String) : Except PyError Table :=
  match fs path with
  | none => .error (.fileNotFound path)
  | some f =>
    match f.utf8 with
    | some df => .ok df
    | none => .ok f.latin1

/-- What `save_dataset` leaves on disk: the CSV always, the Parquet only
when the optional dependency succeeds (its failure is caught and logged,
never propagated). -/
structure SavedArtifacts where
  csv : Option Table
  parquet : Option Table
deriving DecidableEq

/-- `save_dataset` for a cleaned table. -/
def save_dataset (parquetOk : Bool) (df : Table) : SavedArtifacts :=
  ⟨some df, if parquetOk then some df else none⟩

/-- `DataQualityResult`: the quality report. -/
structure DataQualityResult where
  dataset_name : String
  n_rows_before : ℕ
  n_rows_after : ℕ
  n_columns : ℕ
  issues : List Issue
  anomaly_columns : List String
deriving DecidableEq

/-- `DataQualityResult.is_acceptable`. -/
def DataQualityResult.is_acceptable (r : DataQualityResult) : Bool :=
  r.issues.length = 0

/-- `run_data_quality_pipeline`: load, clean, validate, detect anomalies,
save, and return the report together with what was persisted.  The
anomalies are only recorded (the rows are not dropped), and the default
`z_threshold = 4.0` of `detect_numeric_anomalies` applies.  A
`FileNotFoundError` from the load, a `TypeError` from a range check and a
`ValueError` from `astype(float)` all propagate and abort the run. -/
def run_data_quality_pipeline (pf : FloatOfString) (fs : FileSystem)
    (parquetOk : Bool) (raw_path : String) (config : DataQualityConfig) :
    Except PyError (DataQualityResult × SavedArtifacts) := do
  let df_raw ← load_csv fs raw_path
  let n_rows_before := df_raw.rows.length
  let df_clean := basic_cleaning df_raw
  let issues ← validate_schema df_clean config
  let anomalies ← detect_numeric_anomalies pf df_clean config.numeric_columns 4
  let anomaly_cols := anomalies.map Prod.fst
  let saved := save_dataset parquetOk df_clean
  return (⟨config.name, n_rows_before, df_clean.rows.length,
    df_clean.cols.length, issues, anomaly_cols⟩, saved)

/-! ## `AnomalyConfig` and `prepare_daily_series` (src/ml/anomaly_detector.py)

Date parsing (`pd.to_datetime(..., dayfirst=True, errors="coerce")`) and
flooring to the configured frequency are library/locale behaviour, so the
embedding abstracts them: `parseDT` maps a date cell to a timestamp or
`none` when lenient day-first parsing fails (missing cells parse to
`none`, as `NaT`), and `bucketOf` floors a timestamp to its bucket
(`dt.floor(freq)`).  Numeric string parsing of `pd.to_numeric(...,
errors="coerce")` is likewise abstracted by `parseNum`.  All claims are
proved for every choice of these functions.
-/

/-- The anomaly-detector configuration, with the source's defaults
(`freq = "D"` is folded into `bucketOf`). -/
structure AnomalyConfig where
  date_col : String := "fecha"
  value_col : String := "pax_total"
  station_col : Option String := some "estacion"
  window : ℕ := 14
  z_threshold : ℚ := 3
  min_periods : ℕ := 7

/-- Column-name normalization of `prepare_daily_series`:
`.str.strip().str.lower()` (defensive; no underscore replacement here). -/
def normalizeNameAnom (s : String) : String :=
  pyLower (pyStrip s)

/-- Configuration error raised when a required column is absent. -/
inductive ConfigError where
  | missingRequiredColumns (date_col value_col : String)
deriving DecidableEq

/-- One row of a time-bucketed series: bucket, group key and summed
value.  When no group column is configured and present, the station key is
the constant `Cell.null`. -/
structure SRow where
  date : ℤ
  station : Cell
  value : ℚ
deriving DecidableEq

instance : Inhabited SRow := ⟨⟨0, Cell.null, 0⟩⟩

/-- A time-bucketed series.  `hasStation` records whether the optional
group column is present (iff `prepare_daily_series` grouped by it). -/
structure SeriesTable where
  hasStation : Bool
  rows : List SRow
deriving DecidableEq

/-- `pd.to_numeric(errors="coerce")` on one cell. -/
def toNumCell (parseNum : String → Option ℚ) : Cell → Option ℚ
  | .num q => some q
  | .null => none
  | .str s => parseNum s

/-- Rational comparison. -/
def qLeB (a b : ℚ) : Bool :=
  decide (a ≤ b)

/-- Constructor rank used to order cells of different kinds (group keys in
one column share a kind, so only the within-kind orders matter). -/
def cellRank : Cell → ℕ
  | .null => 0
  | .str _ => 1
  | .num _ => 2

/-- Total order on cells: strings by code point (as pandas sorts string
keys), numbers numerically, distinct kinds by rank. -/
def cellLeB : Cell → Cell → Bool
  | .str a, .str b => strLe a b
  | .num a, .num b => qLeB a b
  | a, b => decide (cellRank a ≤ cellRank b)

/-- Sort key of `groupby` on `["date_bucket", station]`: bucket first,
then station. -/
def groupKeyLeB (a b : ℤ × Cell) : Bool :=
  if a.1 < b.1 then true else if b.1 < a.1 then false else cellLeB a.2 b.2

/-- The per-key summed value of a keyed value list. -/
def sumValsFor (kv : List ((ℤ × Cell) × ℚ)) (k : ℤ × Cell) : ℚ :=
  ((kv.filter (fun p => p.1 = k)).map Prod.snd).sum

/-- The distinct keys of a keyed value list in the sorted order `groupby`
emits. -/
def groupKeys (kv : List ((ℤ × Cell) × ℚ)) : List (ℤ × Cell) :=
  List.insertionSort (fun a b => groupKeyLeB a b = true) (dedupFirst (kv.map Prod.fst))

/-- `groupby`'s default `dropna=True`: when the station cell is an actual
group key (`dropNull` set), rows whose station is missing are silently
dropped; the bucket key is never missing (unparseable dates were already
dropped). -/
def dropnaKeys (dropNull : Bool) (kv : List ((ℤ × Cell) × ℚ)) :
    List ((ℤ × Cell) × ℚ) :=
  if dropNull then kv.filter (fun p => decide (p.1.2 ≠ Cell.null)) else kv

/-- `groupby(group_cols, as_index=False)[value].sum()` (with the default
`dropna=True` applied to the group keys): one row per distinct surviving
key, summing the values. -/
def groupbySum (dropNull : Bool) (kv : List ((ℤ × Cell) × ℚ)) : List SRow :=
  (groupKeys (dropnaKeys dropNull kv)).map
    (fun k => ⟨k.1, k.2, sumValsFor (dropnaKeys dropNull kv) k⟩)

/-- Whether the optional group column is configured and present after
normalization. -/
def stationPresent (cols : List String) (cfg : AnomalyConfig) : Bool :=
  match cfg.station_col with
  | some sc => decide (sc ∈ cols)
  | none => false

/-- The group key a raw row's station cell contributes: the station cell
when the group column is in use, else the constant `Cell.null` (grouping
by bucket alone). -/
def stationKey (cols : List String) (cfg : AnomalyConfig) (r : List Cell) : Cell :=
  if stationPresent cols cfg then
    getCell r (colPos cols (cfg.station_col.getD "")) else Cell.null

/-- The coerced measurement of a raw row:
`pd.to_numeric(errors="coerce").fillna(0)`. -/
def coercedValue (parseNum : String → Option ℚ) (cols : List String)
    (cfg : AnomalyConfig) (r : List Cell) : ℚ :=
  (toNumCell parseNum (getCell r (colPos cols cfg.value_col))).getD 0

/-- The (bucket, station) key of a raw row, or `none` when its date fails
lenient parsing (those rows are dropped by `dropna`). -/
def rowKey (parseDT : Cell → Option ℤ) (bucketOf : ℤ → ℤ) (cols : List String)
    (cfg : AnomalyConfig) (r : List Cell) : Option (ℤ × Cell) :=
  (parseDT (getCell r (colPos cols cfg.date_col))).map (fun d =>
    (bucketOf d, stationKey cols cfg r))

/-- The (key, coerced value) pair each raw row contributes, or `none` when
its date fails to parse. -/
def rowContribution (parseDT : Cell → Option ℤ) (bucketOf : ℤ → ℤ)
    (parseNum : String → Option ℚ) (cols : List String) (cfg : AnomalyConfig)
    (r : List Cell) : Option ((ℤ × Cell) × ℚ) :=
  (rowKey parseDT bucketOf cols cfg r).map (fun k =>
    (k, coercedValue parseNum cols cfg r))

/-- `prepare_daily_series`: normalize column names, fail when the date or
measurement column is absent, parse dates leniently and drop failures,
coerce the measurement (unparseable becomes zero), bucket, group and
sum.  When the station column is grouped on, `groupby`'s default
`dropna=True` additionally drops rows whose station cell is missing. -/
def prepare_daily_series (parseDT : Cell → Option ℤ) (bucketOf : ℤ → ℤ)
    (parseNum : String → Option ℚ) (df : Table) (cfg : AnomalyConfig) :
    Except ConfigError SeriesTable :=
  let cols := df.cols.map normalizeNameAnom
  if cfg.date_col ∉ cols ∨ cfg.value_col ∉ cols then
    .error (.missingRequiredColumns cfg.date_col cfg.value_col)
  else
    let kv := df.rows.filterMap (rowContribution parseDT bucketOf parseNum cols cfg)
    .ok ⟨stationPresent cols cfg, groupbySum (stationPresent cols cfg) kv⟩

/-- The spec's per-group value: the sum of the coerced measurement over
the retained raw rows (those whose date parses) that map to key `k`. -/
def specGroupSum (parseDT : Cell → Option ℤ) (bucketOf : ℤ → ℤ)
    (parseNum : String → Option ℚ) (df : Table) (cfg : AnomalyConfig)
    (k : ℤ × Cell) : ℚ :=
  ((df.rows.filter (fun r =>
      rowKey parseDT bucketOf (df.cols.map normalizeNameAnom) cfg r = some k)).map
    (fun r => coercedValue parseNum (df.cols.map normalizeNameAnom) cfg r)).sum

/-! ## `detect_anomalies` (src/ml/anomaly_detector.py:55)

The source computes `z = (value - rolling_mean) / rolling_std` with
`rolling_std = sqrt(rolling_var)` (population, `ddof=0`) and compares
`|z| >= t`, `z >= t`, `z <= -t`.  Since `sqrt` leaves the rationals, the
embedding stores the strictly-monotone image `z * |z|` of the z-score
(`z_signed_sq`) and compares it against `t * |t|`: for every `t`,
`|z| ≥ t ↔ |z*|z|| ≥ t*|t|`, `z ≥ t ↔ z*|z| ≥ t*|t|` and
`z ≤ -t ↔ z*|z| ≤ -(t*|t|)`, which the lemma `signedSq_le_iff` below
proves against the real-valued z-score.
-/

/-- A series row augmented with the five added columns: rolling mean,
rolling standard deviation (represented by its square `rolling_var`, with
the zero-to-missing replacement applied), z-score (represented by
`z * |z|`), anomaly flag and direction label. -/
structure ScoredRow where
  date : ℤ
  station : Cell
  value : ℚ
  rolling_mean : Option ℚ
  rolling_var : Option ℚ
  z_signed_sq : Option ℚ
  is_anomaly : Bool
  anomaly_type : String
deriving DecidableEq

instance : Inhabited ScoredRow :=
  ⟨⟨0, Cell.null, 0, none, none, none, false, "normal"⟩⟩

/-- Sort order of `sort_values`: `[station, date]` when the group column
is in use, else `[date]`. -/
def rowLeB (useStation : Bool) (a b : SRow) : Bool :=
  if useStation then
    if cellLeB a.station b.station ∧ ¬ cellLeB b.station a.station then true
    else if cellLeB b.station a.station ∧ ¬ cellLeB a.station b.station then false
    else decide (a.date ≤ b.date)
  else decide (a.date ≤ b.date)

/-- Whether rolling statistics are computed per station. -/
def useStationOf (s : SeriesTable) (cfg : AnomalyConfig) : Bool :=
  cfg.station_col.isSome && s.hasStation

/-- The rows sorted as `detect_anomalies` sorts them. -/
def sortedOf (s : SeriesTable) (cfg : AnomalyConfig) : List SRow :=
  List.insertionSort (fun a b => rowLeB (useStationOf s cfg) a b = true) s.rows

/-- The last `w` elements of a list. -/
def lastN (w : ℕ) (l : List α) : List α :=
  l.drop (l.length - w)

/-- The trailing window at position `i` (whose row is `r`): the last `w`
values among the rows up to and including `i`, restricted to `r`'s station
when grouping is in use. -/
def windowVals (sorted : List SRow) (useStation : Bool) (w : ℕ) (i : ℕ)
    (r : SRow) : List ℚ :=
  lastN w (((sorted.take (i + 1)).filter
    (fun p => !useStation || decide (p.station = r.station))).map SRow.value)

/-- The rolling mean at a position: `NaN` when fewer than `min_periods`
buckets fall in the window. -/
def rollingMeanAt (sorted : List SRow) (useStation : Bool) (cfg : AnomalyConfig)
    (i : ℕ) (r : SRow) : Option ℚ :=
  let win := windowVals sorted useStation cfg.window i r
  if win.length < cfg.min_periods then none
  else some (win.sum / win.length)

/-- The rolling population variance (`std(ddof=0)` squared) at a
position: `NaN` when fewer than `min_periods` buckets fall in the
window. -/
def rollingVarAt (sorted : List SRow) (useStation : Bool) (cfg : AnomalyConfig)
    (i : ℕ) (r : SRow) : Option ℚ :=
  let win := windowVals sorted useStation cfg.window i r
  if win.length < cfg.min_periods then none
  else some ((win.map (fun x => (x - win.sum / win.length) ^ 2)).sum / win.length)

/-- The `replace(0, nan)` step applied to the rolling standard deviation
(equivalently to its square). -/
def rollingVarReplAt (sorted : List SRow) (useStation : Bool) (cfg : AnomalyConfig)
    (i : ℕ) (r : SRow) : Option ℚ :=
  match rollingVarAt sorted useStation cfg i r with
  | some v => if v = 0 then none else some v
  | none => none

/-- `z * |z|` for the z-score at a position (undefined where the mean or
the replaced deviation is `NaN`). -/
def zSignedSqAt (sorted : List SRow) (useStation : Bool) (cfg : AnomalyConfig)
    (i : ℕ) (r : SRow) : Option ℚ :=
  match rollingMeanAt sorted useStation cfg i r,
      rollingVarReplAt sorted useStation cfg i r with
  | some m, some v => some ((r.value - m) * |r.value - m| / v)
  | _, _ => none

/-- `is_anomaly`: `|z| >= t`, false where the z-score is undefined. -/
def anomalyFlag (z : Option ℚ) (t : ℚ) : Bool :=
  match z with
  | some zs => decide (|zs| ≥ t * |t|)
  | none => false

/-- The direction label of the nested `np.where`: "spike" when `z >= t`,
"drop" when `z <= -t`, else "normal" (`NaN` compares false). -/
def directionOf (z : Option ℚ) (t : ℚ) : String :=
  match z with
  | some zs => if zs ≥ t * |t| then "spike" else if zs ≤ -(t * |t|) then "drop" else "normal"
  | none => "normal"

/-- Score one sorted row: the original three fields plus the five added
columns. -/
def scoreRow (sorted : List SRow) (useStation : Bool) (cfg : AnomalyConfig)
    (i : ℕ) (r : SRow) : ScoredRow :=
  let z := zSignedSqAt sorted useStation cfg i r
  { date := r.date
    station := r.station
    value := r.value
    rolling_mean := rollingMeanAt sorted useStation cfg i r
    rolling_var := rollingVarReplAt sorted useStation cfg i r
    z_signed_sq := z
    is_anomaly := anomalyFlag z cfg.z_threshold
    anomaly_type := directionOf z cfg.z_threshold }

/-- `detect_anomalies`: sort by (station, date) (or date alone), add
rolling statistics per station (or globally), the z-score, the anomaly
flag and the direction label. -/
def detect_anomalies (s : SeriesTable) (cfg : AnomalyConfig) : List ScoredRow :=
  let u := useStationOf s cfg
  let sorted := sortedOf s cfg
  sorted.enum.map (fun p => scoreRow sorted u cfg p.1 p.2)

/-- The original-columns projection of a scored row. -/
def origOf (p : ScoredRow) : SRow :=
  ⟨p.date, p.station, p.value⟩

/-! # Theorems

## Character-level facts about the header transform -/

theorem pyToLower_fix_or_lower (c : Char) :
    pyToLower c = c ∨ pyToLower c ∈ lowerChars := by
  unfold pyToLower
  by_cases h1 : c = 'A'
  · rw [if_pos h1]; right; decide
  rw [if_neg h1]
  by_cases h2 : c = 'B'
  · rw [if_pos h2]; right; decide
  rw [if_neg h2]
  by_cases h3 : c = 'C'
  · rw [if_pos h3]; right; decide
  rw [if_neg h3]
  by_cases h4 : c = 'D'
  · rw [if_pos h4]; right; decide
  rw [if_neg h4]
  by_cases h5 : c = 'E'
  · rw [if_pos h5]; right; decide
  rw [if_neg h5]
  by_cases h6 : c = 'F'
  · rw [if_pos h6]; right; decide
  rw [if_neg h6]
  by_cases h7 : c = 'G'
  · rw [if_pos h7]; right; decide
  rw [if_neg h7]
  by_cases h8 : c = 'H'
  · rw [if_pos h8]; right; decide
  rw [if_neg h8]
  by_cases h9 : c = 'I'
  · rw [if_pos h9]; right; decide
  rw [if_neg h9]
  by_cases h10 : c = 'J'
  · rw [if_pos h10]; right; decide
  rw [if_neg h10]
  by_cases h11 : c = 'K'
  · rw [if_pos h11]; right; decide
  rw [if_neg h11]
  by_cases h12 : c = 'L'
  · rw [if_pos h12]; right; decide
  rw [if_neg h12]
  by_cases h13 : c = 'M'
  · rw [if_pos h13]; right; decide
  rw [if_neg h13]
  by_cases h14 : c = 'N'
  · rw [if_pos h14]; right; decide
  rw [if_neg h14]
  by_cases h15 : c = 'O'
  · rw [if_pos h15]; right; decide
  rw [if_neg h15]
  by_cases h16 : c = 'P'
  · rw [if_pos h16]; right; decide
  rw [if_neg h16]
  by_cases h17 : c = 'Q'
  · rw [if_pos h17]; right; decide
  rw [if_neg h17]
  by_cases h18 : c = 'R'
  · rw [if_pos h18]; right; decide
  rw [if_neg h18]
  by_cases h19 : c = 'S'
  · rw [if_pos h19]; right; decide
  rw [if_neg h19]
  by_cases h20 : c = 'T'
  · rw [if_pos h20]; right; decide
  rw [if_neg h20]
  by_cases h21 : c = 'U'
  · rw [if_pos h21]; right; decide
  rw [if_neg h21]
  by_cases h22 : c = 'V'
  · rw [if_pos h22]; right; decide
  rw [if_neg h22]
  by_cases h23 : c = 'W'
  · rw [if_pos h23]; right; decide
  rw [if_neg h23]
  by_cases h24 : c = 'X'
  · rw [if_pos h24]; right; decide
  rw [if_neg h24]
  by_cases h25 : c = 'Y'
  · rw [if_pos h25]; right; decide
  rw [if_neg h25]
  by_cases h26 : c = 'Z'
  · rw [if_pos h26]; right; decide
  rw [if_neg h26]
  left; rfl

theorem lower_ws_false : ∀ d ∈ lowerChars, isPyWs d = false := by decide

theorem lower_not_upper : ∀ d ∈ lowerChars, ∀ u ∈ upperChars, d ≠ u := by decide

theorem pyToLower_fix_of_lower : ∀ d ∈ lowerChars, pyToLower d = d := by decide

theorem upper_to_lower : ∀ c ∈ upperChars, pyToLower c ∈ lowerChars := by decide

theorem underscore_not_upper : ∀ u ∈ upperChars, '_' ≠ u := by decide

theorem pyToLower_fix_of_ne (c : Char) (h : ∀ u ∈ upperChars, c ≠ u) :
    pyToLower c = c := by
  unfold pyToLower
  rw [if_neg (h 'A' (by decide)), if_neg (h 'B' (by decide)),
    if_neg (h 'C' (by decide)), if_neg (h 'D' (by decide)),
    if_neg (h 'E' (by decide)), if_neg (h 'F' (by decide)),
    if_neg (h 'G' (by decide)), if_neg (h 'H' (by decide)),
    if_neg (h 'I' (by decide)), if_neg (h 'J' (by decide)),
    if_neg (h 'K' (by decide)), if_neg (h 'L' (by decide)),
    if_neg (h 'M' (by decide)), if_neg (h 'N' (by decide)),
    if_neg (h 'O' (by decide)), if_neg (h 'P' (by decide)),
    if_neg (h 'Q' (by decide)), if_neg (h 'R' (by decide)),
    if_neg (h 'S' (by decide)), if_neg (h 'T' (by decide)),
    if_neg (h 'U' (by decide)), if_neg (h 'V' (by decide)),
    if_neg (h 'W' (by decide)), if_neg (h 'X' (by decide)),
    if_neg (h 'Y' (by decide)), if_neg (h 'Z' (by decide))]

theorem pyToLower_not_upper (c : Char) : ∀ u ∈ upperChars, pyToLower c ≠ u := by
  intro u hu
  by_cases hc : c ∈ upperChars
  · exact lower_not_upper _ (upper_to_lower c hc) u hu
  · rw [pyToLower_fix_of_ne c (fun v hv e => hc (e ▸ hv))]
    exact fun e => hc (e ▸ hu)

theorem pyToLower_ws_false {c : Char} (h : isPyWs c = false) :
    isPyWs (pyToLower c) = false := by
  rcases pyToLower_fix_or_lower c with hf | hl
  · rw [hf]; exact h
  · exact lower_ws_false _ hl

theorem replCh_ne {o n c : Char} (h : c ≠ o) : replCh o n c = c := by
  unfold replCh; exact if_neg h

theorem replCh_not_upper {o n c : Char} (hn : ∀ u ∈ upperChars, n ≠ u)
    (hc : ∀ u ∈ upperChars, c ≠ u) : ∀ u ∈ upperChars, replCh o n c ≠ u := by
  unfold replCh
  split_ifs
  · exact hn
  · exact hc

theorem replCh_pres_ne {o n c x : Char} (hc : c ≠ x) (hn : n ≠ x) :
    replCh o n c ≠ x := by
  unfold replCh
  split_ifs
  · exact hn
  · exact hc

theorem replCh_out_ne (n c : Char) (h : n ≠ c) : replCh c n c' ≠ c := by
  unfold replCh
  split_ifs with hc
  · exact h
  · exact hc

theorem replCh_us_ws_false {o c : Char} (h : isPyWs c = false) :
    isPyWs (replCh o '_' c) = false := by
  unfold replCh
  split_ifs
  · decide
  · exact h

theorem normChar_not_upper (c : Char) : ∀ u ∈ upperChars, normChar c ≠ u :=
  replCh_not_upper underscore_not_upper
    (replCh_not_upper underscore_not_upper (pyToLower_not_upper c))

theorem pyToLower_normChar (c : Char) : pyToLower (normChar c) = normChar c :=
  pyToLower_fix_of_ne _ (normChar_not_upper c)

theorem normChar_ne_space (c : Char) : normChar c ≠ ' ' :=
  replCh_pres_ne (replCh_out_ne '_' ' ' (by decide)) (by decide)

theorem normChar_ne_dash (c : Char) : normChar c ≠ '-' :=
  replCh_out_ne '_' '-' (by decide)

theorem replSpace_normChar (c : Char) : replCh ' ' '_' (normChar c) = normChar c :=
  replCh_ne (normChar_ne_space c)

theorem replDash_normChar (c : Char) : replCh '-' '_' (normChar c) = normChar c :=
  replCh_ne (normChar_ne_dash c)

theorem normChar_idem (c : Char) : normChar (normChar c) = normChar c := by
  show replCh '-' '_' (replCh ' ' '_' (pyToLower (normChar c))) = normChar c
  rw [pyToLower_normChar, replSpace_normChar, replDash_normChar]

theorem normChar_ws_false {c : Char} (h : isPyWs c = false) :
    isPyWs (normChar c) = false :=
  replCh_us_ws_false (replCh_us_ws_false (pyToLower_ws_false h))

/-! ## Trimming is idempotent on whitespace-free ends -/

theorem dropWhile_head_ws_false :
    ∀ {l : List Char} {c : Char}, (l.dropWhile isPyWs).head? = some c → isPyWs c = false := by
  intro l
  induction l with
  | nil => intro c h; simp [List.dropWhile] at h
  | cons a t ih =>
    intro c h
    by_cases ha : isPyWs a
    · rw [List.dropWhile_cons, if_pos ha] at h
      exact ih h
    · rw [List.dropWhile_cons, if_neg ha] at h
      simp at h
      rw [← h]
      exact Bool.eq_false_iff.mpr ha

theorem dropWhile_getLast? :
    ∀ {l : List Char}, l.dropWhile isPyWs ≠ [] →
      (l.dropWhile isPyWs).getLast? = l.getLast? := by
  intro l
  induction l with
  | nil => intro h; simp [List.dropWhile] at h
  | cons a t ih =>
    intro h
    by_cases ha : isPyWs a
    · rw [List.dropWhile_cons, if_pos ha] at h ⊢
      have ht : t ≠ [] := by
        intro e; rw [e] at h; simp [List.dropWhile] at h
      rcases t with _ | ⟨b, t'⟩
      · exact absurd rfl ht
      · rw [ih h, List.getLast?_cons_cons]
    · rw [List.dropWhile_cons, if_neg ha]

theorem dropWhile_eq_self_of_head (m : List Char)
    (h : ∀ c, m.head? = some c → isPyWs c = false) :
    m.dropWhile isPyWs = m := by
  rcases m with _ | ⟨a, t⟩
  · rfl
  · rw [List.dropWhile_cons, if_neg]
    rw [h a rfl]
    exact Bool.false_ne_true

theorem trim_fix (m : List Char)
    (h1 : ∀ c, m.head? = some c → isPyWs c = false)
    (h2 : ∀ c, m.reverse.head? = some c → isPyWs c = false) :
    trimChars m = m := by
  unfold trimChars
  rw [dropWhile_eq_self_of_head m h1, dropWhile_eq_self_of_head m.reverse h2,
    List.reverse_reverse]

theorem trimChars_head_ws_false (l : List Char) :
    ∀ c, (trimChars l).head? = some c → isPyWs c = false := by
  intro c h
  unfold trimChars at h
  rw [List.head?_reverse] at h
  set X := ((l.dropWhile isPyWs).reverse).dropWhile isPyWs with hX
  have hne : X ≠ [] := by
    intro e; rw [e] at h; simp at h
  rw [dropWhile_getLast? hne, List.getLast?_reverse] at h
  exact dropWhile_head_ws_false h

theorem trimChars_revhead_ws_false (l : List Char) :
    ∀ c, (trimChars l).reverse.head? = some c → isPyWs c = false := by
  intro c h
  unfold trimChars at h
  rw [List.reverse_reverse] at h
  exact dropWhile_head_ws_false h

theorem trim_map_trim (l : List Char) :
    trimChars ((trimChars l).map normChar) = (trimChars l).map normChar := by
  apply trim_fix
  · intro c h
    rw [List.head?_map] at h
    rcases e : (trimChars l).head? with _ | d
    · rw [e] at h; simp at h
    · rw [e] at h
      simp at h
      rw [← h]
      exact normChar_ws_false (trimChars_head_ws_false l d e)
  · intro c h
    rw [← List.map_reverse, List.head?_map] at h
    rcases e : (trimChars l).reverse.head? with _ | d
    · rw [e] at h; simp at h
    · rw [e] at h
      simp at h
      rw [← h]
      exact normChar_ws_false (trimChars_revhead_ws_false l d e)

/-! ## Idempotence of the header transform -/

theorem normalizeName_eq (s : String) :
    normalizeName s = ⟨(trimChars s.data).map normChar⟩ := by
  simp only [normalizeName, pyReplaceChar, pyLower, pyStrip, List.map_map]
  rfl

theorem map_normChar_idem (x : List Char) :
    (x.map normChar).map normChar = x.map normChar := by
  induction x with
  | nil => rfl
  | cons a t ih => simp only [List.map_cons]; rw [normChar_idem, ih]

theorem normalizeName_idem (s : String) :
    normalizeName (normalizeName s) = normalizeName s := by
  rw [normalizeName_eq s, normalizeName_eq]
  show (⟨(trimChars ((trimChars s.data).map normChar)).map normChar⟩ : String) = _
  rw [trim_map_trim, map_normChar_idem]

theorem map_normalizeName_idem (l : List String) :
    (l.map normalizeName).map normalizeName = l.map normalizeName := by
  induction l with
  | nil => rfl
  | cons a t ih => simp only [List.map_cons]; rw [normalizeName_idem, ih]

/-- C8: `standardize_columns` is idempotent: applying the header transform
(trim, lower-case, replace spaces and hyphens with underscores, touching
only the header) twice yields the same table as applying it once. -/
theorem standardize_columns_idempotent (df : Table) :
    standardize_column_names (standardize_column_names df) = standardize_column_names df := by
  show Table.mk ((df.cols.map normalizeName).map normalizeName) df.rows = _
  rw [map_normalizeName_idem]
  rfl

/-! ## Duplicate removal: first-seen semantics -/

theorem dedupFirstAux_congr [DecidableEq α] {seen seen' : List α}
    (h : ∀ x, x ∈ seen ↔ x ∈ seen') :
    ∀ l : List α, dedupFirstAux seen l = dedupFirstAux seen' l := by
  intro l
  induction l generalizing seen seen' with
  | nil => rfl
  | cons a t ih =>
    unfold dedupFirstAux
    by_cases ha : a ∈ seen
    · rw [if_pos ha, if_pos ((h a).mp ha)]
      exact ih h
    · rw [if_neg ha, if_neg (fun e => ha ((h a).mpr e))]
      refine congrArg (a :: ·) (ih ?_)
      intro x
      simp only [List.mem_cons]
      exact or_congr Iff.rfl (h x)

theorem foldl_specDistinct_eq [DecidableEq α] :
    ∀ (l acc : List α),
      l.foldl (fun acc r => if r ∈ acc then acc else acc ++ [r]) acc =
        acc ++ dedupFirstAux acc l := by
  intro l
  induction l with
  | nil => intro acc; simp [dedupFirstAux]
  | cons a t ih =>
    intro acc
    rw [List.foldl_cons]
    simp only [dedupFirstAux]
    by_cases ha : a ∈ acc
    · rw [if_pos ha, if_pos ha, ih acc]
    · rw [if_neg ha, if_neg ha, ih (acc ++ [a]),
        dedupFirstAux_congr
          (show ∀ x, x ∈ acc ++ [a] ↔ x ∈ a :: acc by intro x; simp [or_comm]) t]
      simp

theorem dedupFirst_eq_specDistinct [DecidableEq α] (l : List α) :
    dedupFirst l = specDistinct l := by
  unfold specDistinct dedupFirst
  rw [foldl_specDistinct_eq l []]
  simp

theorem mem_dedupFirstAux [DecidableEq α] {x : α} :
    ∀ {l seen : List α}, x ∈ dedupFirstAux seen l ↔ x ∈ l ∧ x ∉ seen := by
  intro l
  induction l with
  | nil => intro seen; simp [dedupFirstAux]
  | cons a t ih =>
    intro seen
    unfold dedupFirstAux
    by_cases ha : a ∈ seen
    · rw [if_pos ha, ih]
      simp only [List.mem_cons]
      constructor
      · exact fun ⟨h1, h2⟩ => ⟨Or.inr h1, h2⟩
      · rintro ⟨h1 | h1, h2⟩
        · exact absurd (h1 ▸ ha) h2
        · exact ⟨h1, h2⟩
    · rw [if_neg ha]
      simp only [List.mem_cons, ih, List.mem_cons]
      constructor
      · rintro (rfl | ⟨h1, h2⟩)
        · exact ⟨Or.inl rfl, ha⟩
        · exact ⟨Or.inr h1, fun hx => h2 (Or.inr hx)⟩
      · rintro ⟨rfl | h1, h2⟩
        · exact Or.inl rfl
        · by_cases hxa : x = a
          · exact Or.inl hxa
          · exact Or.inr ⟨h1, fun hx => (hx.elim hxa h2)⟩

theorem mem_dedupFirst [DecidableEq α] {x : α} {l : List α} :
    x ∈ dedupFirst l ↔ x ∈ l := by
  unfold dedupFirst
  rw [mem_dedupFirstAux]
  simp

theorem dedupFirstAux_sublist [DecidableEq α] :
    ∀ (l seen : List α), (dedupFirstAux seen l).Sublist l := by
  intro l
  induction l with
  | nil => intro seen; simp [dedupFirstAux]
  | cons a t ih =>
    intro seen
    unfold dedupFirstAux
    by_cases ha : a ∈ seen
    · rw [if_pos ha]
      exact (ih seen).cons a
    · rw [if_neg ha]
      exact (ih (a :: seen)).cons₂ a

theorem dedupFirst_sublist [DecidableEq α] (l : List α) :
    (dedupFirst l).Sublist l :=
  dedupFirstAux_sublist l []

theorem dedupFirstAux_nodup [DecidableEq α] :
    ∀ (l seen : List α), (dedupFirstAux seen l).Nodup := by
  intro l
  induction l with
  | nil => intro seen; simp [dedupFirstAux]
  | cons a t ih =>
    intro seen
    unfold dedupFirstAux
    by_cases ha : a ∈ seen
    · rw [if_pos ha]; exact ih seen
    · rw [if_neg ha]
      refine List.nodup_cons.mpr ⟨?_, ih (a :: seen)⟩
      intro hmem
      exact (mem_dedupFirstAux.mp hmem).2 (List.mem_cons_self a seen)

theorem dedupFirst_nodup [DecidableEq α] (l : List α) :
    (dedupFirst l).Nodup :=
  dedupFirstAux_nodup l []

/-! ## `basic_cleaning`: distinct rows and trimming -/

/-- C7 counterexample: the rows of `basic_clean(T)` are not literally the
distinct rows of `T` in first-seen order, because text cells are trimmed
after the duplicates are removed. -/
theorem basic_clean_rows_ne_distinct_rows :
    (basic_cleaning ⟨["c"], [[Cell.str " a"]]⟩).rows ≠
      specDistinct (Table.mk ["c"] [[Cell.str " a"]]).rows := by
  decide

/-- C7 (amended): `basic_clean(T)` has exactly one row for each distinct
row of T — duplicate removal drops only fully duplicate rows, keeps
first-seen order and never reorders surviving rows — and each surviving
row equals the corresponding distinct row of T with its text-typed cells
trimmed. -/
theorem basic_clean_distinct_rows (T : Table) :
    (basic_cleaning T).rows = trimTextColumns (specDistinct T.rows) ∧
    (specDistinct T.rows).Sublist T.rows ∧
    (specDistinct T.rows).Nodup ∧
    (∀ r, r ∈ specDistinct T.rows ↔ r ∈ T.rows) := by
  refine ⟨?_, ?_, ?_, ?_⟩
  · show trimTextColumns (dedupFirst T.rows) = _
    rw [dedupFirst_eq_specDistinct]
  · rw [← dedupFirst_eq_specDistinct]
    exact dedupFirst_sublist _
  · rw [← dedupFirst_eq_specDistinct]
    exact dedupFirst_nodup _
  · intro r
    rw [← dedupFirst_eq_specDistinct]
    exact mem_dedupFirst

/-- C10: duplicate removal runs before trimming, so two rows that differ
only by surrounding whitespace in a text column are both retained and
become identical rows of the output, which is therefore not duplicate
free. -/
theorem basic_clean_trims_after_dedup (s1 s2 : String) (h1 : s1 ≠ s2)
    (h2 : pyStrip s1 = pyStrip s2) :
    basic_cleaning ⟨["c"], [[Cell.str s1], [Cell.str s2]]⟩ =
      ⟨["c"], [[Cell.str (pyStrip s1)], [Cell.str (pyStrip s1)]]⟩ ∧
    ¬ (basic_cleaning ⟨["c"], [[Cell.str s1], [Cell.str s2]]⟩).rows.Nodup := by
  have hmain : basic_cleaning ⟨["c"], [[Cell.str s1], [Cell.str s2]]⟩ =
      ⟨["c"], [[Cell.str (pyStrip s1)], [Cell.str (pyStrip s1)]]⟩ := by
    have hdedup : dedupFirst [[Cell.str s1], [Cell.str s2]] =
        [[Cell.str s1], [Cell.str s2]] := by
      simp [dedupFirst, dedupFirstAux, Ne.symm h1]
    show Table.mk (["c"].map normalizeName)
        (trimTextColumns (dedupFirst [[Cell.str s1], [Cell.str s2]])) = _
    rw [hdedup]
    have hcol : isTextColumn [[Cell.str s1], [Cell.str s2]] 0 = true := by
      simp [isTextColumn, getCell, isTextCell]
    simp [trimTextColumns, mapWithIdx, hcol, trimCell, h2]
    decide
  refine ⟨hmain, ?_⟩
  rw [hmain]
  simp

/-! ## `validate_schema` equals its seven-block description -/

theorem foldl_eq_flatMap (f : List β → α → List β) (g : α → List β)
    (hf : ∀ acc x, f acc x = acc ++ g x) :
    ∀ (l : List α) (init : List β), l.foldl f init = init ++ l.flatMap g := by
  intro l
  induction l with
  | nil => intro init; simp
  | cons a t ih =>
    intro init
    rw [List.foldl_cons, hf, ih, List.flatMap_cons, List.append_assoc]

theorem ite_append_abs {c : Prop} [Decidable c] (acc x : List γ) :
    (if c then acc ++ x else acc) = acc ++ if c then x else [] := by
  split_ifs <;> simp

theorem nonNull_loop (df : Table) (config : DataQualityConfig) (init : List Issue) :
    config.non_null_columns.foldl (fun acc col =>
      if col ∈ df.cols then
        let nullCount := (column df col).countP (fun c => c = Cell.null)
        if nullCount > 0 then acc ++ [.nullColumn col nullCount] else acc
      else acc ++ [.nonNullColumnMissing col]) init = init ++ nonNullIssues df config := by
  refine foldl_eq_flatMap _ _ ?_ _ _
  intro acc x
  by_cases hx : x ∈ df.cols
  · rw [if_pos hx, if_pos hx]
    dsimp only
    split_ifs <;> simp
  · rw [if_neg hx, if_neg hx]

theorem allowed_loop (df : Table) (config : DataQualityConfig) (init : List Issue) :
    config.allowed_values.foldl (fun acc p =>
      if p.1 ∈ df.cols then
        let invalid := dedupFirst ((column df p.1).filter (fun c => c ∉ p.2))
        if invalid ≠ [] then acc ++ [.invalidValues p.1 invalid] else acc
      else acc) init = init ++ allowedValueIssues df config := by
  refine foldl_eq_flatMap _ _ ?_ _ _
  intro acc x
  by_cases hx : x.1 ∈ df.cols
  · rw [if_pos hx, if_pos hx]
    dsimp only
    split_ifs <;> simp
  · rw [if_neg hx, if_neg hx]
    simp

theorem except_bind_ok {ε α β : Type} (x : α) (f : α → Except ε β) :
    (Except.ok x >>= f) = f x := rfl

theorem except_pure_eq {ε α : Type} (x : α) : (pure x : Except ε α) = .ok x := rfl

theorem except_bind_error {ε α β : Type} (e : ε) (f : α → Except ε β) :
    ((Except.error e : Except ε α) >>= f) = .error e := rfl

theorem except_map_ok {ε α β : Type} (g : α → β) (x : α) :
    (g <$> (Except.ok x : Except ε α)) = .ok (g x) := rfl

theorem unique_loop (df : Table) (config : DataQualityConfig) (init : List Issue) :
    config.unique_keys.foldl (fun acc key =>
      if key.all (fun k => k ∈ df.cols) then
        let d := dupKeyCount df.cols key df.rows
        if d > 0 then acc ++ [.duplicateKey key d] else acc
      else acc) init = init ++ uniqueKeyIssues df config := by
  refine foldl_eq_flatMap _ _ ?_ _ _
  intro acc x
  by_cases hx : x.all (fun k => k ∈ df.cols)
  · rw [if_pos hx, if_pos hx]
    dsimp only
    split_ifs <;> simp
  · rw [if_neg hx, if_neg hx]
    simp

/-- On a column free of text cells the range check cannot raise: it
returns the accumulated issues extended by the pair's block. -/
theorem rangeCheck_no_text (df : Table) (acc : List Issue)
    (p : String × (Option ℚ × Option ℚ)) (hp : columnHasText df p.1 = false) :
    rangeCheck df acc p = .ok (acc ++ rangeIssuesFor df p) := by
  obtain ⟨c1, mn, mx⟩ := p
  unfold rangeCheck rangeIssuesFor
  dsimp only at hp ⊢
  by_cases hc : c1 ∈ df.cols
  · rw [if_pos hc, if_pos hc]
    rcases mn with _ | m <;> rcases mx with _ | M <;>
      simp only [hp, Bool.false_eq_true, if_false] <;>
      first
        | (split_ifs <;> simp [List.append_assoc])
        | simp
  · rw [if_neg hc, if_neg hc]
    simp

theorem range_loop_ok (df : Table) :
    ∀ (l : List (String × (Option ℚ × Option ℚ))),
      (∀ p ∈ l, columnHasText df p.1 = false) →
      ∀ (init : List Issue),
        l.foldlM (rangeCheck df) init =
          .ok (init ++ l.flatMap (rangeIssuesFor df)) := by
  intro l
  induction l with
  | nil => intro _ init; simp [except_pure_eq]
  | cons p l ih =>
    intro h init
    rw [List.foldlM_cons,
      rangeCheck_no_text df init p (h p (List.mem_cons_self p l)),
      except_bind_ok, ih (fun q hq => h q (List.mem_cons_of_mem p hq)),
      List.flatMap_cons]
    simp [List.append_assoc]

/-- Shared helper: when no range-constrained column holds text, `validate`
completes and returns the seven documented blocks in order. -/
theorem validate_schema_eq_spec_of_no_text (df : Table) (config : DataQualityConfig)
    (h : ∀ p ∈ config.value_ranges, columnHasText df p.1 = false) :
    validate_schema df config = .ok (validate_schema_spec df config) := by
  simp only [validate_schema, range_loop_ok df config.value_ranges h]
  rw [unique_loop, allowed_loop, nonNull_loop,
    ite_append_abs, ite_append_abs, ite_append_abs]
  simp only [validate_schema_spec, missingColumnIssues, unexpectedColumnIssues,
    rowCountIssues, valueRangeIssues, List.nil_append, List.append_assoc]

/-- C3 (amended): when no column constrained by a value range holds a text
cell — `df[col] < m` on a string-bearing column raises `TypeError`, so the
source only completes under that proviso — `validate` returns its issues
in the documented fixed order: the sorted missing-columns issue, the
sorted unexpected-columns issue, one issue per violating non-null column
(an absent non-null column getting its own distinct issue), the row-count
issue, one issue per allowed-value violation listing the distinct invalid
values, the below-minimum and above-maximum range issues checked
independently per column, and one issue per violated unique key. -/
theorem validate_schema_ordered_blocks (df : Table) (config : DataQualityConfig)
    (h : ∀ p ∈ config.value_ranges, columnHasText df p.1 = false) :
    validate_schema df config = .ok (validate_schema_spec df config) :=
  validate_schema_eq_spec_of_no_text df config h

/-- C3 witness: a one-column numeric table with a value range on that
column; the proviso holds and the blocks come out in order. -/
theorem validate_schema_ordered_blocks_witness :
    (∀ p ∈ (DataQualityConfig.mk "ds" ["v"] [] [] []
        [] [("v", (some 0, some 100))] [] 1).value_ranges,
      columnHasText ⟨["v"], [[Cell.num 5]]⟩ p.1 = false) ∧
    validate_schema ⟨["v"], [[Cell.num 5]]⟩
        (DataQualityConfig.mk "ds" ["v"] [] [] [] [] [("v", (some 0, some 100))] [] 1) =
      .ok (validate_schema_spec ⟨["v"], [[Cell.num 5]]⟩
        (DataQualityConfig.mk "ds" ["v"] [] [] [] [] [("v", (some 0, some 100))] [] 1)) :=
  ⟨by decide, validate_schema_ordered_blocks ⟨["v"], [[Cell.num 5]]⟩
    (DataQualityConfig.mk "ds" ["v"] [] [] [] [] [("v", (some 0, some 100))] [] 1)
    (by decide)⟩

/-- C3 counterexample: on a table whose range-constrained column holds a
text cell, `validate` does not return a list of issues at all — the
comparison `df[col] < min_val` raises `TypeError`, which the original
claim ("for every table ... returns its issue strings") excludes. -/
theorem validate_schema_raises_type_error :
    validate_schema ⟨["v"], [[Cell.str "a"]]⟩
        (DataQualityConfig.mk "ds" ["v"] [] [] [] [] [("v", (some 0, none))] [] 1) =
      .error (.typeError "v") := rfl

/-! ## `detect_numeric_anomalies`: sample, not population, deviation -/

/-- When a column present in the table converts under `astype(float)`,
its loop iteration cannot raise: it returns the accumulator extended by
the column's entry. -/
theorem detectStep_ok (pf : FloatOfString) (df : Table) (t : ℚ)
    (acc : List (String × List ℕ)) (col : String)
    (h : col ∈ df.cols → (astypeFloat pf df col).isSome) :
    detectStep pf df t acc col = .ok (acc ++ (detectEntry pf df t col).toList) := by
  unfold detectStep detectEntry
  by_cases hc : col ∈ df.cols
  · rw [if_pos hc, if_pos hc]
    obtain ⟨s, hs⟩ := Option.isSome_iff_exists.mp (h hc)
    rw [hs]
    rcases hm : seriesMean s with _ | m <;>
      rcases hv : seriesSampleVar s with _ | v <;>
      simp only [hm, hv] <;>
      first | (split_ifs <;> simp) | simp
  · rw [if_neg hc, if_neg hc]
    simp

theorem detect_loop_ok (pf : FloatOfString) (df : Table) (t : ℚ) :
    ∀ (l : List String),
      (∀ col ∈ l, col ∈ df.cols → (astypeFloat pf df col).isSome) →
      ∀ (acc : List (String × List ℕ)),
        l.foldlM (detectStep pf df t) acc =
          .ok (acc ++ l.filterMap (detectEntry pf df t)) := by
  intro l
  induction l with
  | nil => intro _ acc; simp [except_pure_eq]
  | cons c l ih =>
    intro h acc
    rw [List.foldlM_cons,
      detectStep_ok pf df t acc c (h c (List.mem_cons_self c l)),
      except_bind_ok, ih (fun q hq => h q (List.mem_cons_of_mem c hq)),
      List.filterMap_cons]
    rcases he : detectEntry pf df t c with _ | e <;> simp [List.append_assoc]

/-- Shared helper: when every listed numeric column present in the table
converts under `astype(float)`, the column loop completes and collects
the per-column entries in order. -/
theorem detect_numeric_ok_of_convertible (pf : FloatOfString) (df : Table)
    (numeric_columns : List String) (t : ℚ)
    (h : ∀ col ∈ numeric_columns, col ∈ df.cols → (astypeFloat pf df col).isSome) :
    detect_numeric_anomalies pf df numeric_columns t =
      .ok (detect_numeric_anomalies_spec pf df numeric_columns t) := by
  unfold detect_numeric_anomalies detect_numeric_anomalies_spec
  rw [detect_loop_ok pf df t numeric_columns h [], List.nil_append]

/-- C1 (amended): when every listed numeric column present in the table
converts under `astype(float)` — a non-numeric text cell instead raises
`ValueError` — `detect_numeric_anomalies` computes, per such column, the
column's mean and its sample standard deviation (pandas `Series.std()`
default, divide by `N - 1`), skips the column when that deviation is zero
or undefined, and flags exactly the rows whose z-score magnitude is
`≥ z_threshold`, reporting a column only when at least one of its rows is
flagged. -/
theorem detect_numeric_anomalies_characterized (pf : FloatOfString) (df : Table)
    (numeric_columns : List String) (z_threshold : ℚ)
    (hconv : ∀ col ∈ numeric_columns,
      col ∈ df.cols → (astypeFloat pf df col).isSome) :
    detect_numeric_anomalies pf df numeric_columns z_threshold =
      .ok (detect_numeric_anomalies_spec pf df numeric_columns z_threshold) :=
  detect_numeric_ok_of_convertible pf df numeric_columns z_threshold hconv

/-- C1 witness: a one-column numeric table converts, so the loop completes
and is characterized by the declarative entries. -/
theorem detect_numeric_anomalies_characterized_witness :
    (∀ col ∈ ["v"], col ∈ (Table.mk ["v"] [[Cell.num 0], [Cell.num 1]]).cols →
      (astypeFloat (fun _ => none) ⟨["v"], [[Cell.num 0], [Cell.num 1]]⟩ col).isSome) ∧
    detect_numeric_anomalies (fun _ => none) ⟨["v"], [[Cell.num 0], [Cell.num 1]]⟩
        ["v"] 4 =
      .ok (detect_numeric_anomalies_spec (fun _ => none)
        ⟨["v"], [[Cell.num 0], [Cell.num 1]]⟩ ["v"] 4) :=
  ⟨by decide, detect_numeric_anomalies_characterized (fun _ => none)
    ⟨["v"], [[Cell.num 0], [Cell.num 1]]⟩ ["v"] 4 (by decide)⟩

/-- Justification of the squared comparison used by `zFlagged`: for a
positive variance and a nonnegative threshold, `(x - mean)^2 ≥ t^2 * var`
holds exactly when the real-valued z-score magnitude
`|x - mean| / sqrt var` is at least `t`. -/
theorem sq_flag_iff_z_flag (x m v t : ℚ) (hv : 0 < v) (ht : 0 ≤ t) :
    ((x - m) ^ 2 ≥ t ^ 2 * v) ↔
      ((t : ℝ) ≤ |(x : ℝ) - (m : ℝ)| / Real.sqrt (v : ℝ)) := by
  have hv' : (0 : ℝ) < (v : ℝ) := by exact_mod_cast hv
  have hs : (0 : ℝ) < Real.sqrt (v : ℝ) := Real.sqrt_pos.mpr hv'
  have ht' : (0 : ℝ) ≤ (t : ℝ) := by exact_mod_cast ht
  rw [le_div_iff₀ hs]
  rw [← pow_le_pow_iff_left₀ (mul_nonneg ht' hs.le) (abs_nonneg _) two_ne_zero]
  rw [mul_pow, Real.sq_sqrt hv'.le, sq_abs, ge_iff_le]
  constructor
  · intro h; exact_mod_cast h
  · intro h; exact_mod_cast h

theorem mul_abs_lt_mul_abs (a b : ℝ) (h : a < b) : a * |a| < b * |b| := by
  rcases le_or_lt 0 a with ha | ha
  · have hb : 0 < b := lt_of_le_of_lt ha h
    rw [abs_of_nonneg ha, abs_of_pos hb]
    nlinarith
  · rcases le_or_lt 0 b with hb | hb
    · have h1 : a * |a| < 0 := by rw [abs_of_neg ha]; nlinarith
      have h2 : 0 ≤ b * |b| := by rw [abs_of_nonneg hb]; positivity
      linarith
    · rw [abs_of_neg ha, abs_of_neg hb]
      nlinarith

theorem mul_abs_le_mul_abs_iff (a b : ℝ) : a * |a| ≤ b * |b| ↔ a ≤ b := by
  constructor
  · intro h
    by_contra hc
    push_neg at hc
    exact absurd h (not_le.mpr (mul_abs_lt_mul_abs b a hc))
  · intro h
    rcases eq_or_lt_of_le h with rfl | h
    · exact le_rfl
    · exact (mul_abs_lt_mul_abs a b h).le

/-- Justification of the signed-square representation used by
`detect_anomalies`: for a positive rolling variance, comparing
`z * |z|` against `t * |t|` is equivalent to comparing the real-valued
z-score `z = (value - mean) / sqrt var` against `t`, for every `t`. -/
theorem signedSq_le_iff (x m v t : ℝ) (hv : 0 < v) :
    (t * |t| ≤ (x - m) * |x - m| / v) ↔ (t ≤ (x - m) / Real.sqrt v) := by
  have hs : 0 < Real.sqrt v := Real.sqrt_pos.mpr hv
  have key : ((x - m) / Real.sqrt v) * |(x - m) / Real.sqrt v| =
      (x - m) * |x - m| / v := by
    rw [abs_div, abs_of_pos hs, div_mul_div_comm, Real.mul_self_sqrt hv.le]
  rw [← key, mul_abs_le_mul_abs_iff]

/-- C1 counterexample: on the column `[0, 0, 0, 0, 10]` with threshold
`1.9`, the population computation the claim describes flags the last row
(population z-score `2`), but the source, which uses the pandas sample
standard deviation, flags nothing (sample z-score about `1.79`). -/
theorem detect_numeric_anomalies_ne_population :
    detect_numeric_anomalies (fun _ => none)
        ⟨["v"], [[Cell.num 0], [Cell.num 0], [Cell.num 0], [Cell.num 0], [Cell.num 10]]⟩
        ["v"] (19/10) ≠
      detect_numeric_anomalies_population (fun _ => none)
        ⟨["v"], [[Cell.num 0], [Cell.num 0], [Cell.num 0], [Cell.num 0], [Cell.num 10]]⟩
        ["v"] (19/10) := by
  have hcode : detect_numeric_anomalies (fun _ => none)
      ⟨["v"], [[Cell.num 0], [Cell.num 0], [Cell.num 0], [Cell.num 0], [Cell.num 10]]⟩
      ["v"] (19/10) = .ok [] := by
    rw [detect_numeric_ok_of_convertible _ _ _ _ (by decide)]
    norm_num [detect_numeric_anomalies_spec, detectEntry, astypeFloat, astypeList,
      cellFloat, column, seriesMean, seriesSampleVar, presentVals, zFlagged,
      getCell, colPos, List.findIdx, List.findIdx.go, List.range, List.range.loop,
      List.filter, List.filterMap_cons]
  have hstep : detectStepPop (fun _ => none)
      ⟨["v"], [[Cell.num 0], [Cell.num 0], [Cell.num 0], [Cell.num 0], [Cell.num 10]]⟩
      (19/10) [] "v" = .ok [("v", [4])] := by
    norm_num [detectStepPop, astypeFloat, astypeList, cellFloat, column,
      seriesMean, seriesPopVar, presentVals, zFlagged, getCell, colPos,
      List.findIdx, List.findIdx.go, List.range, List.range.loop, List.filter,
      List.filterMap_cons]
  have hpop : detect_numeric_anomalies_population (fun _ => none)
      ⟨["v"], [[Cell.num 0], [Cell.num 0], [Cell.num 0], [Cell.num 0], [Cell.num 10]]⟩
      ["v"] (19/10) = .ok [("v", [4])] := by
    unfold detect_numeric_anomalies_population
    rw [List.foldlM_cons, hstep, except_bind_ok, List.foldlM_nil, except_pure_eq]
  rw [hcode, hpop]
  simp

/-! ## `run_data_quality_pipeline`: error propagation policy -/

/-- Unfolding of the pipeline on a run in which every fallible step
succeeds. -/
theorem run_pipeline_eq (pf : FloatOfString) (fs : FileSystem) (parquetOk : Bool)
    (raw_path : String) (config : DataQualityConfig) (df : Table)
    (I : List Issue) (A : List (String × List ℕ))
    (hload : load_csv fs raw_path = .ok df)
    (hval : validate_schema (basic_cleaning df) config = .ok I)
    (hdet : detect_numeric_anomalies pf (basic_cleaning df)
      config.numeric_columns 4 = .ok A) :
    run_data_quality_pipeline pf fs parquetOk raw_path config =
      .ok (⟨config.name, df.rows.length, (basic_cleaning df).rows.length,
          (basic_cleaning df).cols.length, I, A.map Prod.fst⟩,
        save_dataset parquetOk (basic_cleaning df)) := by
  unfold run_data_quality_pipeline
  simp only [hload, except_bind_ok, hval, hdet, except_map_ok, except_pure_eq]

/-- C4 (amended): an absent source file aborts the run with a
file-not-found error; when the file exists the pipeline loads it, and —
provided no range-constrained column of the cleaned table holds text
(else the range check raises `TypeError`) and every listed numeric column
present in the cleaned table converts under `astype(float)` (else
`ValueError`) — the run completes and returns the quality report:
schema/value/uniqueness violations and numeric anomalies are accumulated
into the report's lists, the cleaned table is persisted regardless of
anomalies found, and a failing optional columnar write is caught (the CSV
is still written and the run still succeeds). -/
theorem run_pipeline_total (pf : FloatOfString) (fs : FileSystem)
    (parquetOk : Bool) (raw_path : String) (config : DataQualityConfig) :
    (fs raw_path = none →
      run_data_quality_pipeline pf fs parquetOk raw_path config =
        .error (.fileNotFound raw_path)) ∧
    (∀ f, fs raw_path = some f →
      ∃ df, load_csv fs raw_path = .ok df ∧
        ((∀ p ∈ config.value_ranges,
            columnHasText (basic_cleaning df) p.1 = false) →
         (∀ col ∈ config.numeric_columns, col ∈ (basic_cleaning df).cols →
            (astypeFloat pf (basic_cleaning df) col).isSome) →
          run_data_quality_pipeline pf fs parquetOk raw_path config =
            .ok (⟨config.name, df.rows.length, (basic_cleaning df).rows.length,
                (basic_cleaning df).cols.length,
                validate_schema_spec (basic_cleaning df) config,
                (detect_numeric_anomalies_spec pf (basic_cleaning df)
                  config.numeric_columns 4).map Prod.fst⟩,
              save_dataset parquetOk (basic_cleaning df)))) := by
  constructor
  · intro h
    simp only [run_data_quality_pipeline, load_csv, h, except_bind_error]
  · intro f hf
    rcases hu : f.utf8 with _ | t
    · refine ⟨f.latin1, by simp [load_csv, hf, hu], fun hval hconv => ?_⟩
      exact run_pipeline_eq pf fs parquetOk raw_path config f.latin1 _ _
        (by simp [load_csv, hf, hu])
        (validate_schema_eq_spec_of_no_text _ config hval)
        (detect_numeric_ok_of_convertible pf _ config.numeric_columns 4 hconv)
    · refine ⟨t, by simp [load_csv, hf, hu], fun hval hconv => ?_⟩
      exact run_pipeline_eq pf fs parquetOk raw_path config t _ _
        (by simp [load_csv, hf, hu])
        (validate_schema_eq_spec_of_no_text _ config hval)
        (detect_numeric_ok_of_convertible pf _ config.numeric_columns 4 hconv)

/-- C4 witness: a one-file filesystem and a configuration with no value
ranges and no numeric columns; the provisos hold vacuously and the
pipeline returns the report. -/
theorem run_pipeline_total_witness :
    ∃ df, load_csv (fun p => if p = "data.csv"
        then some (⟨some ⟨["a"], [[Cell.str "x"]]⟩, ⟨["a"], [[Cell.str "x"]]⟩⟩ : RawFile)
        else none) "data.csv" = .ok df ∧
      run_data_quality_pipeline (fun _ => none) (fun p => if p = "data.csv"
        then some (⟨some ⟨["a"], [[Cell.str "x"]]⟩, ⟨["a"], [[Cell.str "x"]]⟩⟩ : RawFile)
        else none) true "data.csv" ⟨"ds", ["a"], [], [], [], [], [], [], 1⟩ =
        .ok (⟨"ds", df.rows.length, (basic_cleaning df).rows.length,
            (basic_cleaning df).cols.length,
            validate_schema_spec (basic_cleaning df) ⟨"ds", ["a"], [], [], [], [], [], [], 1⟩,
            (detect_numeric_anomalies_spec (fun _ => none) (basic_cleaning df) [] 4).map
              Prod.fst⟩,
          save_dataset true (basic_cleaning df)) := by
  obtain ⟨df, hload, himp⟩ :=
    (run_pipeline_total (fun _ => none) (fun p => if p = "data.csv"
        then some (⟨some ⟨["a"], [[Cell.str "x"]]⟩, ⟨["a"], [[Cell.str "x"]]⟩⟩ : RawFile)
        else none) true "data.csv" ⟨"ds", ["a"], [], [], [], [], [], [], 1⟩).2
      ⟨some ⟨["a"], [[Cell.str "x"]]⟩, ⟨["a"], [[Cell.str "x"]]⟩⟩ (by rfl)
  exact ⟨df, hload, himp (by simp) (by simp)⟩

/-- C4 counterexample: with the source file present, the run does not
always complete — a listed numeric column holding non-numeric text makes
`astype(float)` raise `ValueError`, which propagates and aborts the run,
so a missing source file is not the only abort. -/
theorem run_pipeline_aborts_on_value_error :
    ((fun p => if p = "data.csv"
        then some (⟨some ⟨["v"], [[Cell.str "x"]]⟩, ⟨["v"], [[Cell.str "x"]]⟩⟩ : RawFile)
        else none) : FileSystem) "data.csv" ≠ none ∧
    run_data_quality_pipeline (fun _ => none) (fun p => if p = "data.csv"
        then some (⟨some ⟨["v"], [[Cell.str "x"]]⟩, ⟨["v"], [[Cell.str "x"]]⟩⟩ : RawFile)
        else none) true "data.csv" ⟨"ds", ["v"], [], [], ["v"], [], [], [], 1⟩ =
      .error (.valueError "v") :=
  ⟨by simp, rfl⟩

/-! ## `prepare_daily_series`: configuration errors and grouping -/

/-- C6: `prepare_series` raises the named configuration error if and only
if the required date column or the required measurement column is absent
after defensive column-name normalization; when both are present it
returns a series and never raises. -/
theorem prepare_series_error_iff (parseDT : Cell → Option ℤ) (bucketOf : ℤ → ℤ)
    (parseNum : String → Option ℚ) (df : Table) (cfg : AnomalyConfig) :
    (prepare_daily_series parseDT bucketOf parseNum df cfg =
        .error (.missingRequiredColumns cfg.date_col cfg.value_col) ↔
      (cfg.date_col ∉ df.cols.map normalizeNameAnom ∨
       cfg.value_col ∉ df.cols.map normalizeNameAnom)) ∧
    ((∃ S, prepare_daily_series parseDT bucketOf parseNum df cfg = .ok S) ∨
      prepare_daily_series parseDT bucketOf parseNum df cfg =
        .error (.missingRequiredColumns cfg.date_col cfg.value_col)) := by
  unfold prepare_daily_series
  by_cases h : cfg.date_col ∉ df.cols.map normalizeNameAnom ∨
      cfg.value_col ∉ df.cols.map normalizeNameAnom
  · rw [if_pos h]
    exact ⟨⟨fun _ => h, fun _ => rfl⟩, Or.inr rfl⟩
  · rw [if_neg h]
    exact ⟨⟨fun e => absurd e (by simp), fun hh => absurd hh h⟩, Or.inl ⟨_, rfl⟩⟩

/-! Properties of `groupbySum`. -/

theorem keys_of_groupbySum (dn : Bool) (kv : List ((ℤ × Cell) × ℚ)) :
    (groupbySum dn kv).map (fun r => (r.date, r.station)) =
      groupKeys (dropnaKeys dn kv) := by
  unfold groupbySum
  rw [List.map_map]
  have : ((fun r : SRow => (r.date, r.station)) ∘
      (fun k : ℤ × Cell => SRow.mk k.1 k.2 (sumValsFor (dropnaKeys dn kv) k))) = id := by
    funext k
    simp
  rw [this, List.map_id]

theorem groupKeys_nodup (kv : List ((ℤ × Cell) × ℚ)) : (groupKeys kv).Nodup := by
  unfold groupKeys
  exact (List.perm_insertionSort _ _).symm.nodup (dedupFirst_nodup _)

theorem mem_groupKeys {kv : List ((ℤ × Cell) × ℚ)} {k : ℤ × Cell} :
    k ∈ groupKeys kv ↔ k ∈ kv.map Prod.fst := by
  unfold groupKeys
  rw [(List.perm_insertionSort _ _).mem_iff, mem_dedupFirst]

theorem value_of_groupbySum {dn : Bool} {kv : List ((ℤ × Cell) × ℚ)} {r : SRow}
    (h : r ∈ groupbySum dn kv) :
    r.value = sumValsFor (dropnaKeys dn kv) (r.date, r.station) := by
  unfold groupbySum at h
  rcases List.mem_map.mp h with ⟨k, _, rfl⟩
  simp

/-- The keys surviving `dropna`: those of the original pairs whose
station component is not missing (when the station is a real group
key). -/
theorem mem_map_fst_dropnaKeys {dn : Bool} {kv : List ((ℤ × Cell) × ℚ)}
    {k : ℤ × Cell} :
    k ∈ (dropnaKeys dn kv).map Prod.fst ↔
      k ∈ kv.map Prod.fst ∧ (dn = true → k.2 ≠ Cell.null) := by
  unfold dropnaKeys
  rcases dn with _ | _
  · simp
  · rw [if_pos rfl]
    constructor
    · intro h
      rcases List.mem_map.mp h with ⟨p, hp, rfl⟩
      rcases List.mem_filter.mp hp with ⟨hp1, hp2⟩
      exact ⟨List.mem_map.mpr ⟨p, hp1, rfl⟩, fun _ => by simpa using hp2⟩
    · rintro ⟨hk, hnn⟩
      rcases List.mem_map.mp hk with ⟨p, hp, rfl⟩
      exact List.mem_map.mpr
        ⟨p, List.mem_filter.mpr ⟨hp, by simpa using hnn rfl⟩, rfl⟩

/-- Summing over the `dropna`-filtered pairs at a key that survives the
filter gives the same total as summing over all pairs. -/
theorem sumValsFor_dropnaKeys (dn : Bool) (kv : List ((ℤ × Cell) × ℚ))
    (k : ℤ × Cell) (h : dn = true → k.2 ≠ Cell.null) :
    sumValsFor (dropnaKeys dn kv) k = sumValsFor kv k := by
  rcases dn with _ | _
  · rfl
  · unfold sumValsFor dropnaKeys
    rw [if_pos rfl]
    have hfil : (kv.filter (fun p => decide (p.1.2 ≠ Cell.null))).filter
        (fun p => p.1 = k) = kv.filter (fun p => p.1 = k) := by
      induction kv with
      | nil => rfl
      | cons p kv ih =>
        by_cases hp : p.1 = k
        · have hr : (decide (p.1.2 ≠ Cell.null)) = true := by
            rw [hp]
            simpa using h rfl
          rw [List.filter_cons, if_pos hr, List.filter_cons,
            if_pos (by simp [hp]), List.filter_cons, if_pos (by simp [hp]), ih]
        · by_cases hr : (decide (p.1.2 ≠ Cell.null)) = true
          · rw [List.filter_cons, if_pos hr, List.filter_cons,
              if_neg (by simp [hp]), List.filter_cons, if_neg (by simp [hp]), ih]
          · rw [List.filter_cons, if_neg hr, List.filter_cons,
              if_neg (by simp [hp]), ih]
    rw [hfil]

theorem filterMap_contribution_filter (parseDT : Cell → Option ℤ) (bucketOf : ℤ → ℤ)
    (parseNum : String → Option ℚ) (cols : List String) (cfg : AnomalyConfig)
    (k : ℤ × Cell) :
    ∀ rows : List (List Cell),
      (((rows.filterMap (rowContribution parseDT bucketOf parseNum cols cfg)).filter
          (fun p => p.1 = k)).map Prod.snd) =
        (rows.filter (fun r => rowKey parseDT bucketOf cols cfg r = some k)).map
          (fun r => coercedValue parseNum cols cfg r) := by
  intro rows
  induction rows with
  | nil => rfl
  | cons r rows ih =>
    rw [List.filterMap_cons]
    rcases hk : rowKey parseDT bucketOf cols cfg r with _ | k'
    · simp only [rowContribution, hk, Option.map_none', List.filter_cons]
      rw [if_neg (by simp [hk])]
      exact ih
    · simp only [rowContribution, hk, Option.map_some', List.filter_cons]
      by_cases hkk : k' = k
      · subst hkk
        rw [if_pos (by simp), if_pos (by simp [hk])]
        simp only [List.map_cons, ih]
      · rw [if_neg (by simp [hkk]), if_neg (by simp [hk, hkk])]
        exact ih

theorem mem_keys_filterMap (parseDT : Cell → Option ℤ) (bucketOf : ℤ → ℤ)
    (parseNum : String → Option ℚ) (cols : List String) (cfg : AnomalyConfig)
    (rows : List (List Cell)) (k : ℤ × Cell) :
    k ∈ (rows.filterMap (rowContribution parseDT bucketOf parseNum cols cfg)).map
        Prod.fst ↔
      ∃ r ∈ rows, rowKey parseDT bucketOf cols cfg r = some k := by
  rw [List.mem_map]
  constructor
  · rintro ⟨p, hp, rfl⟩
    rcases List.mem_filterMap.mp hp with ⟨r, hr, hc⟩
    unfold rowContribution at hc
    rcases hk : rowKey parseDT bucketOf cols cfg r with _ | k' <;> rw [hk] at hc
    · simp at hc
    · simp only [Option.map_some'] at hc
      injection hc with hc2
      subst hc2
      exact ⟨r, hr, hk⟩
  · rintro ⟨r, hr, hk⟩
    refine ⟨(k, coercedValue parseNum cols cfg r), List.mem_filterMap.mpr
      ⟨r, hr, ?_⟩, rfl⟩
    unfold rowContribution
    rw [hk, Option.map_some']

/-- C5 (amended): when the configured date and measurement columns are
present, `prepare_series` drops the raw rows whose date fails lenient
parsing — and, when the group column is in use, also the retained rows
whose group-key cell is missing (`groupby`'s default `dropna=True`) —
coerces each unparseable measurement to zero while keeping its row, and
returns one output row per surviving (bucket, group-key) pair, with no
pair repeated, whose value is the sum of the coerced measurement over the
rows of that pair (the group key is the constant `Cell.null`, i.e.
bucket-alone grouping, when no group column is configured and
present). -/
theorem prepare_series_grouped (parseDT : Cell → Option ℤ) (bucketOf : ℤ → ℤ)
    (parseNum : String → Option ℚ) (df : Table) (cfg : AnomalyConfig)
    (hd : cfg.date_col ∈ df.cols.map normalizeNameAnom)
    (hv : cfg.value_col ∈ df.cols.map normalizeNameAnom) :
    ∃ S, prepare_daily_series parseDT bucketOf parseNum df cfg = .ok S ∧
      S.hasStation = stationPresent (df.cols.map normalizeNameAnom) cfg ∧
      (S.rows.map (fun r => (r.date, r.station))).Nodup ∧
      (∀ k, k ∈ S.rows.map (fun r => (r.date, r.station)) ↔
        ((∃ r ∈ df.rows,
            rowKey parseDT bucketOf (df.cols.map normalizeNameAnom) cfg r = some k) ∧
          (stationPresent (df.cols.map normalizeNameAnom) cfg = true →
            k.2 ≠ Cell.null))) ∧
      (∀ r' ∈ S.rows,
        r'.value = specGroupSum parseDT bucketOf parseNum df cfg
          (r'.date, r'.station)) := by
  unfold prepare_daily_series
  rw [if_neg (by push_neg; exact ⟨hd, hv⟩)]
  refine ⟨_, rfl, rfl, ?_, ?_, ?_⟩
  · rw [keys_of_groupbySum]
    exact groupKeys_nodup _
  · intro k
    rw [keys_of_groupbySum, mem_groupKeys, mem_map_fst_dropnaKeys,
      mem_keys_filterMap]
  · intro r' hr'
    have h1 : (r'.date, r'.station) ∈
        (groupbySum (stationPresent (df.cols.map normalizeNameAnom) cfg)
          (df.rows.filterMap (rowContribution parseDT bucketOf parseNum
            (df.cols.map normalizeNameAnom) cfg))).map
          (fun r => (r.date, r.station)) :=
      List.mem_map.mpr ⟨r', hr', rfl⟩
    rw [keys_of_groupbySum, mem_groupKeys] at h1
    have hcond := (mem_map_fst_dropnaKeys.mp h1).2
    rw [value_of_groupbySum hr', sumValsFor_dropnaKeys _ _ _ hcond]
    unfold sumValsFor specGroupSum
    rw [filterMap_contribution_filter]

/-- C5 witness: a two-row table (one parseable date, one not) over
concrete parsers; the hypotheses hold and the characterization applies. -/
theorem prepare_series_grouped_witness :
    ("fecha" ∈ (Table.mk ["Fecha ", "pax_total"]
        [[Cell.str "d1", Cell.num 10], [Cell.str "bad", Cell.num 7]]).cols.map
          normalizeNameAnom) ∧
    ("pax_total" ∈ (Table.mk ["Fecha ", "pax_total"]
        [[Cell.str "d1", Cell.num 10], [Cell.str "bad", Cell.num 7]]).cols.map
          normalizeNameAnom) ∧
    (∃ S, prepare_daily_series
        (fun c => match c with | Cell.str "d1" => some 1 | _ => none)
        (fun d => d) (fun _ => none)
        (Table.mk ["Fecha ", "pax_total"]
          [[Cell.str "d1", Cell.num 10], [Cell.str "bad", Cell.num 7]])
        ⟨"fecha", "pax_total", some "estacion", 14, 3, 7⟩ = .ok S ∧
      S.hasStation = stationPresent
        ((Table.mk ["Fecha ", "pax_total"]
          [[Cell.str "d1", Cell.num 10], [Cell.str "bad", Cell.num 7]]).cols.map
            normalizeNameAnom) ⟨"fecha", "pax_total", some "estacion", 14, 3, 7⟩ ∧
      (S.rows.map (fun r => (r.date, r.station))).Nodup ∧
      (∀ k, k ∈ S.rows.map (fun r => (r.date, r.station)) ↔
        ((∃ r ∈ (Table.mk ["Fecha ", "pax_total"]
            [[Cell.str "d1", Cell.num 10], [Cell.str "bad", Cell.num 7]]).rows,
          rowKey (fun c => match c with | Cell.str "d1" => some 1 | _ => none)
            (fun d => d)
            ((Table.mk ["Fecha ", "pax_total"]
              [[Cell.str "d1", Cell.num 10], [Cell.str "bad", Cell.num 7]]).cols.map
                normalizeNameAnom)
            ⟨"fecha", "pax_total", some "estacion", 14, 3, 7⟩ r = some k) ∧
          (stationPresent
            ((Table.mk ["Fecha ", "pax_total"]
              [[Cell.str "d1", Cell.num 10], [Cell.str "bad", Cell.num 7]]).cols.map
                normalizeNameAnom)
            ⟨"fecha", "pax_total", some "estacion", 14, 3, 7⟩ = true →
            k.2 ≠ Cell.null))) ∧
      (∀ r' ∈ S.rows,
        r'.value = specGroupSum
          (fun c => match c with | Cell.str "d1" => some 1 | _ => none)
          (fun d => d) (fun _ => none)
          (Table.mk ["Fecha ", "pax_total"]
            [[Cell.str "d1", Cell.num 10], [Cell.str "bad", Cell.num 7]])
          ⟨"fecha", "pax_total", some "estacion", 14, 3, 7⟩
          (r'.date, r'.station))) :=
  ⟨by decide, by decide,
    prepare_series_grouped
      (fun c => match c with | Cell.str "d1" => some 1 | _ => none)
      (fun d => d) (fun _ => none)
      (Table.mk ["Fecha ", "pax_total"]
        [[Cell.str "d1", Cell.num 10], [Cell.str "bad", Cell.num 7]])
      ⟨"fecha", "pax_total", some "estacion", 14, 3, 7⟩
      (by decide) (by decide)⟩

/-- C5 counterexample: the original claim ("drops exactly the rows whose
date fails lenient day-first parsing") fails when the group column is in
use: the second row's date parses — its key is `(1, Cell.null)` — yet
`groupby`'s default `dropna=True` silently drops it because its station
cell is missing, so the output has no row for that key. -/
theorem prepare_series_drops_missing_station :
    rowKey (fun c => match c with | Cell.str "d1" => some 1 | _ => none)
        (fun d => d)
        ((Table.mk ["fecha", "pax_total", "estacion"]
          [[Cell.str "d1", Cell.num 10, Cell.str "A"],
           [Cell.str "d1", Cell.num 7, Cell.null]]).cols.map normalizeNameAnom)
        ⟨"fecha", "pax_total", some "estacion", 14, 3, 7⟩
        [Cell.str "d1", Cell.num 7, Cell.null] = some (1, Cell.null) ∧
    (prepare_daily_series
        (fun c => match c with | Cell.str "d1" => some 1 | _ => none)
        (fun d => d) (fun _ => none)
        (Table.mk ["fecha", "pax_total", "estacion"]
          [[Cell.str "d1", Cell.num 10, Cell.str "A"],
           [Cell.str "d1", Cell.num 7, Cell.null]])
        ⟨"fecha", "pax_total", some "estacion", 14, 3, 7⟩).map
      (fun S => S.rows.map (fun r => (r.date, r.station))) =
      .ok [(1, Cell.str "A")] :=
  ⟨rfl, rfl⟩

/-! ## The sort order of `detect_anomalies` is total and transitive -/

theorem charListLe_total : ∀ a b : List Char,
    charListLe a b = true ∨ charListLe b a = true := by
  intro a
  induction a with
  | nil => intro b; left; cases b <;> rfl
  | cons x as ih =>
    intro b
    cases b with
    | nil => right; rfl
    | cons y bs =>
      show (if x < y then true else if y < x then false else charListLe as bs) = true ∨
        (if y < x then true else if x < y then false else charListLe bs as) = true
      rcases lt_trichotomy x y with h | h | h
      · left; rw [if_pos h]
      · subst h
        rw [if_neg (lt_irrefl x), if_neg (lt_irrefl x), if_neg (lt_irrefl x),
          if_neg (lt_irrefl x)]
        exact ih bs
      · right; rw [if_pos h]

theorem charListLe_trans : ∀ a b c : List Char, charListLe a b = true →
    charListLe b c = true → charListLe a c = true := by
  intro a
  induction a with
  | nil => intro b c _ _; rfl
  | cons x as ih =>
    intro b c hab hbc
    cases b with
    | nil => exact absurd hab (by simp [charListLe])
    | cons y bs =>
      cases c with
      | nil => exact absurd hbc (by simp [charListLe])
      | cons z cs =>
        revert hab hbc
        show (if x < y then true else if y < x then false else charListLe as bs) = true →
          (if y < z then true else if z < y then false else charListLe bs cs) = true →
          (if x < z then true else if z < x then false else charListLe as cs) = true
        rcases lt_trichotomy x y with hxy | hxy | hxy <;>
          rcases lt_trichotomy y z with hyz | hyz | hyz
        · intro _ _; rw [if_pos (lt_trans hxy hyz)]
        · subst hyz; intro _ _; rw [if_pos hxy]
        · intro _ hbc
          rw [if_neg (lt_asymm hyz), if_pos hyz] at hbc
          exact absurd hbc (by simp)
        · subst hxy; intro _ _; rw [if_pos hyz]
        · subst hxy; subst hyz
          rw [if_neg (lt_irrefl x), if_neg (lt_irrefl x), if_neg (lt_irrefl x),
            if_neg (lt_irrefl x), if_neg (lt_irrefl x), if_neg (lt_irrefl x)]
          exact ih bs cs
        · subst hxy; intro _ hbc
          rw [if_neg (lt_asymm hyz), if_pos hyz] at hbc
          exact absurd hbc (by simp)
        · intro hab _
          rw [if_neg (lt_asymm hxy), if_pos hxy] at hab
          exact absurd hab (by simp)
        · intro hab _
          rw [if_neg (lt_asymm hxy), if_pos hxy] at hab
          exact absurd hab (by simp)
        · intro hab _
          rw [if_neg (lt_asymm hxy), if_pos hxy] at hab
          exact absurd hab (by simp)

theorem cellLeB_total : ∀ a b : Cell, cellLeB a b = true ∨ cellLeB b a = true := by
  intro a b
  cases a <;> cases b <;>
    first
      | (left; rfl)
      | (right; rfl)
      | (exact charListLe_total _ _)
      | (simp only [cellLeB, qLeB, decide_eq_true_eq]; exact le_total _ _)

theorem cellLeB_trans : ∀ a b c : Cell, cellLeB a b = true → cellLeB b c = true →
    cellLeB a c = true := by
  intro a b c hab hbc
  cases a <;> cases b <;> cases c <;>
    first
      | rfl
      | (exact charListLe_trans _ _ _ hab hbc)
      | (simp only [cellLeB, qLeB, decide_eq_true_eq] at hab hbc ⊢;
         exact le_trans hab hbc)
      | (refine absurd hbc ?_; simp [cellLeB, cellRank]; done)
      | (refine absurd hab ?_; simp [cellLeB, cellRank]; done)

theorem rowLeB_total (u : Bool) :
    ∀ a b : SRow, rowLeB u a b = true ∨ rowLeB u b a = true := by
  intro a b
  cases u with
  | false =>
    simp only [rowLeB, Bool.false_eq_true, if_false, decide_eq_true_eq]
    exact le_total _ _
  | true =>
    cases hsab : cellLeB a.station b.station <;>
      cases hsba : cellLeB b.station a.station
    · rcases cellLeB_total a.station b.station with h | h
      · rw [hsab] at h; exact absurd h (by simp)
      · rw [hsba] at h; exact absurd h (by simp)
    · right; simp [rowLeB, hsab, hsba]
    · left; simp [rowLeB, hsab, hsba]
    · rcases le_total a.date b.date with h | h
      · left; simp [rowLeB, hsab, hsba, h]
      · right; simp [rowLeB, hsab, hsba, h]

theorem rowLeB_trans (u : Bool) : ∀ a b c : SRow, rowLeB u a b = true →
    rowLeB u b c = true → rowLeB u a c = true := by
  intro a b c hab hbc
  cases u with
  | false =>
    simp only [rowLeB, Bool.false_eq_true, if_false, decide_eq_true_eq] at hab hbc ⊢
    exact le_trans hab hbc
  | true =>
    cases hsab : cellLeB a.station b.station <;>
      cases hsba : cellLeB b.station a.station
    · rcases cellLeB_total a.station b.station with h | h
      · rw [hsab] at h; exact absurd h (by simp)
      · rw [hsba] at h; exact absurd h (by simp)
    · simp [rowLeB, hsab, hsba] at hab
    · cases hsbc : cellLeB b.station c.station <;>
        cases hscb : cellLeB c.station b.station
      · rcases cellLeB_total b.station c.station with h | h
        · rw [hsbc] at h; exact absurd h (by simp)
        · rw [hscb] at h; exact absurd h (by simp)
      · simp [rowLeB, hsbc, hscb] at hbc
      · have hac := cellLeB_trans _ _ _ hsab hsbc
        have hca : cellLeB c.station a.station = false := by
          cases hc : cellLeB c.station a.station
          · rfl
          · have hcb := cellLeB_trans _ _ _ hc hsab
            rw [hscb] at hcb
            exact absurd hcb (by simp)
        simp [rowLeB, hac, hca]
      · have hac := cellLeB_trans _ _ _ hsab hsbc
        have hca : cellLeB c.station a.station = false := by
          cases hc : cellLeB c.station a.station
          · rfl
          · have hba := cellLeB_trans _ _ _ hsbc hc
            rw [hsba] at hba
            exact absurd hba (by simp)
        simp [rowLeB, hac, hca]
    · cases hsbc : cellLeB b.station c.station <;>
        cases hscb : cellLeB c.station b.station
      · rcases cellLeB_total b.station c.station with h | h
        · rw [hsbc] at h; exact absurd h (by simp)
        · rw [hscb] at h; exact absurd h (by simp)
      · simp [rowLeB, hsbc, hscb] at hbc
      · have hac := cellLeB_trans _ _ _ hsab hsbc
        have hca : cellLeB c.station a.station = false := by
          cases hc : cellLeB c.station a.station
          · rfl
          · have hcb := cellLeB_trans _ _ _ hc hsab
            rw [hscb] at hcb
            exact absurd hcb (by simp)
        simp [rowLeB, hac, hca]
      · have hac := cellLeB_trans _ _ _ hsab hsbc
        have hca := cellLeB_trans _ _ _ hscb hsba
        simp [rowLeB, hsab, hsba, hsbc, hscb, hac, hca] at hab hbc ⊢
        omega

/-! ## `detect_anomalies`: frame and undefined z-scores -/

theorem map_origOf_enumFrom (sorted : List SRow) (u : Bool) (cfg : AnomalyConfig) :
    ∀ (l : List SRow) (n : ℕ),
      ((l.enumFrom n).map (fun p => scoreRow sorted u cfg p.1 p.2)).map origOf = l := by
  intro l
  induction l with
  | nil => intro n; rfl
  | cons a t ih =>
    intro n
    rw [List.enumFrom_cons, List.map_cons, List.map_cons, ih]
    rfl

theorem map_origOf_detect (s : SeriesTable) (cfg : AnomalyConfig) :
    (detect_anomalies s cfg).map origOf = sortedOf s cfg := by
  show ((sortedOf s cfg).enum.map
    (fun p => scoreRow (sortedOf s cfg) (useStationOf s cfg) cfg p.1 p.2)).map
      origOf = _
  rw [List.enum_eq_enumFrom]
  exact map_origOf_enumFrom _ _ _ _ 0

/-- C9: `detect_anomalies` preserves its input rows exactly: the
original-columns projection of the output is a permutation of the input
rows, sorted by (group key if present, then bucket); the original values
are unchanged (the projection recovers them) and no row is dropped or
added (the lengths agree); the five analysis columns are the only
additions. -/
theorem detect_anomalies_frame (s : SeriesTable) (cfg : AnomalyConfig) :
    ((detect_anomalies s cfg).map origOf).Perm s.rows ∧
    List.Pairwise (fun a b => rowLeB (useStationOf s cfg) a b = true)
      ((detect_anomalies s cfg).map origOf) ∧
    (detect_anomalies s cfg).length = s.rows.length := by
  have hm := map_origOf_detect s cfg
  refine ⟨?_, ?_, ?_⟩
  · rw [hm]
    exact List.perm_insertionSort _ _
  · rw [hm]
    haveI : IsTotal SRow (fun a b => rowLeB (useStationOf s cfg) a b = true) :=
      ⟨rowLeB_total _⟩
    haveI : IsTrans SRow (fun a b => rowLeB (useStationOf s cfg) a b = true) :=
      ⟨rowLeB_trans _⟩
    exact List.sorted_insertionSort _ _
  · calc (detect_anomalies s cfg).length
        = ((detect_anomalies s cfg).map origOf).length :=
          (List.length_map _ _).symm
      _ = (sortedOf s cfg).length := by rw [hm]
      _ = s.rows.length := (List.perm_insertionSort _ _).length_eq

theorem detect_getD (s : SeriesTable) (cfg : AnomalyConfig) (i : ℕ)
    (hi : i < (sortedOf s cfg).length) :
    (detect_anomalies s cfg).getD i default =
      scoreRow (sortedOf s cfg) (useStationOf s cfg) cfg i
        ((sortedOf s cfg).getD i default) := by
  unfold detect_anomalies
  rw [List.getD_eq_getElem?_getD, List.getD_eq_getElem?_getD, List.getElem?_map,
    List.getElem?_enum, List.getElem?_eq_getElem hi]
  rfl

theorem zSignedSqAt_none_of_undefined (sorted : List SRow) (u : Bool)
    (cfg : AnomalyConfig) (i : ℕ) (r : SRow)
    (h : (windowVals sorted u cfg.window i r).length < cfg.min_periods ∨
      rollingVarAt sorted u cfg i r = some 0) :
    zSignedSqAt sorted u cfg i r = none := by
  rcases h with h | h
  · have hmean : rollingMeanAt sorted u cfg i r = none := by
      unfold rollingMeanAt
      rw [if_pos h]
    unfold zSignedSqAt
    rw [hmean]
  · have hrepl : rollingVarReplAt sorted u cfg i r = none := by
      unfold rollingVarReplAt
      rw [h]
      simp
    unfold zSignedSqAt
    rw [hrepl]
    rcases rollingMeanAt sorted u cfg i r with _ | m <;> rfl

/-- C2: in `detect_anomalies`, every bucket whose z-score is undefined —
because fewer than `min_periods` buckets fall in its trailing window, or
because the rolling standard deviation over that window is exactly zero —
has anomaly flag `false` and direction label `"normal"`; in particular a
bucket with zero rolling deviation is never flagged and no division by
zero occurs. -/
theorem detect_anomalies_undefined_z (s : SeriesTable) (cfg : AnomalyConfig)
    (i : ℕ) (hi : i < (sortedOf s cfg).length)
    (h : (windowVals (sortedOf s cfg) (useStationOf s cfg) cfg.window i
          ((sortedOf s cfg).getD i default)).length < cfg.min_periods ∨
      rollingVarAt (sortedOf s cfg) (useStationOf s cfg) cfg i
          ((sortedOf s cfg).getD i default) = some 0) :
    ((detect_anomalies s cfg).getD i default).is_anomaly = false ∧
    ((detect_anomalies s cfg).getD i default).anomaly_type = "normal" := by
  rw [detect_getD s cfg i hi]
  have hz := zSignedSqAt_none_of_undefined (sortedOf s cfg) (useStationOf s cfg)
    cfg i ((sortedOf s cfg).getD i default) h
  unfold scoreRow
  rw [hz]
  exact ⟨rfl, rfl⟩

/-- C2 witness: a single-bucket series under the default configuration
(`min_periods = 7`): its window holds one bucket, so the z-score is
undefined, the flag is false and the label is "normal". -/
theorem detect_anomalies_undefined_z_witness :
    (0 < (sortedOf ⟨false, [⟨0, Cell.null, 5⟩]⟩
        ⟨"fecha", "pax_total", some "estacion", 14, 3, 7⟩).length ∧
      ((windowVals (sortedOf ⟨false, [⟨0, Cell.null, 5⟩]⟩
            ⟨"fecha", "pax_total", some "estacion", 14, 3, 7⟩)
          (useStationOf ⟨false, [⟨0, Cell.null, 5⟩]⟩
            ⟨"fecha", "pax_total", some "estacion", 14, 3, 7⟩) 14 0
          ((sortedOf ⟨false, [⟨0, Cell.null, 5⟩]⟩
            ⟨"fecha", "pax_total", some "estacion", 14, 3, 7⟩).getD 0
              default)).length < 7 ∨
        rollingVarAt (sortedOf ⟨false, [⟨0, Cell.null, 5⟩]⟩
            ⟨"fecha", "pax_total", some "estacion", 14, 3, 7⟩)
          (useStationOf ⟨false, [⟨0, Cell.null, 5⟩]⟩
            ⟨"fecha", "pax_total", some "estacion", 14, 3, 7⟩)
          ⟨"fecha", "pax_total", some "estacion", 14, 3, 7⟩ 0
          ((sortedOf ⟨false, [⟨0, Cell.null, 5⟩]⟩
            ⟨"fecha", "pax_total", some "estacion", 14, 3, 7⟩).getD 0
              default) = some 0)) ∧
    (((detect_anomalies ⟨false, [⟨0, Cell.null, 5⟩]⟩
        ⟨"fecha", "pax_total", some "estacion", 14, 3, 7⟩).getD 0
          default).is_anomaly = false ∧
      ((detect_anomalies ⟨false, [⟨0, Cell.null, 5⟩]⟩
        ⟨"fecha", "pax_total", some "estacion", 14, 3, 7⟩).getD 0
          default).anomaly_type = "normal") :=
  ⟨⟨by decide, Or.inl (by decide)⟩,
    detect_anomalies_undefined_z ⟨false, [⟨0, Cell.null, 5⟩]⟩
      ⟨"fecha", "pax_total", some "estacion", 14, 3, 7⟩ 0 (by decide)
      (Or.inl (by decide))⟩

/-- C10 witness: at `s1 = "a "` and `s2 = "a"` the two rows survive
deduplication and trim to the same row. -/
theorem basic_clean_trims_after_dedup_witness :
    (("a " : String) ≠ "a" ∧ pyStrip "a " = pyStrip "a") ∧
    (basic_cleaning ⟨["c"], [[Cell.str "a "], [Cell.str "a"]]⟩ =
       ⟨["c"], [[Cell.str (pyStrip "a ")], [Cell.str (pyStrip "a ")]]⟩ ∧
     ¬ (basic_cleaning ⟨["c"], [[Cell.str "a "], [Cell.str "a"]]⟩).rows.Nodup) :=
  ⟨⟨by decide, by decide⟩,
    basic_clean_trims_after_dedup "a " "a" (by decide) (by decide)⟩
